import Mathlib

/-!
Verification of the sparse-wiki-grounding core against its specification.

The definitions below are a shallow embedding of the Python source:
`src/wiki_grounding/entity.py` (position model), `src/wiki_grounding/store.py`
(entity store, modelled as in-memory lists standing for the SQLite tables),
`src/wiki_grounding/spreading.py` (two-layer spreading activation) and
`src/wiki_grounding/verifier.py` (claim verification).  Python floats are
modelled as rationals, Python dicts as insertion-ordered association lists,
and the `while` loop of `spread_multiple` as a fuel-indexed iteration whose
fuel is proved sufficient.
-/

/-- Python `str.lower()` for the ASCII strings handled by the code, defined
over the character list so that it reduces in the kernel. -/
def strLower (s : String) : String := String.mk (s.data.map Char.toLower)

/-- The five hierarchical dimension trees (entity.py `GroundingDimension`). -/
inductive GroundingDimension where
  | SPATIAL
  | TEMPORAL
  | TAXONOMIC
  | SCALE
  | DOMAIN
deriving DecidableEq

/-- A Wikipedia/Wikidata entity (entity.py `Entity`). -/
structure Entity where
  id : String
  wikipedia_title : String
  label : String
  description : Option String := none
  vital_level : Option Int := none
  pagerank : Option ℚ := none
deriving DecidableEq

/-- Position in one dimension tree (entity.py `DimensionPosition`). -/
structure DimensionPosition where
  dimension : GroundingDimension
  path_sign : Int
  path_depth : Int
  path_nodes : List String
  zero_state : String
deriving DecidableEq

/-- Evaluation-Potency-Activity coordinates (entity.py `EPAValues`).
The ternary values are modelled as integers, as in the Python `IntEnum`. -/
structure EPAValues where
  evaluation : Int := 0
  potency : Int := 0
  activity : Int := 0
  confidence : ℚ := 1
deriving DecidableEq

/-- Complete entity profile (entity.py `EntityProfile`).  The property map is
an association list standing for the Python dict. -/
structure EntityProfile where
  entity : Entity
  positions : List DimensionPosition := []
  epa : EPAValues := {}
  properties : List (String × String) := []
deriving DecidableEq

namespace EntityProfile

/-- `EntityProfile.get_position`: first position whose dimension matches. -/
def get_position (p : EntityProfile) (dimension : GroundingDimension) :
    Option DimensionPosition :=
  p.positions.find? (fun pos => pos.dimension = dimension)

/-- `EntityProfile.navigate_toward_zero`: reversed path nodes, `[]` if the
profile has no position in the dimension. -/
def navigate_toward_zero (p : EntityProfile) (dimension : GroundingDimension) :
    List String :=
  match p.get_position dimension with
  | none => []
  | some position => position.path_nodes.reverse

/-- `EntityProfile.navigate_from_zero`: the path nodes, `[]` if the profile
has no position in the dimension. -/
def navigate_from_zero (p : EntityProfile) (dimension : GroundingDimension) :
    List String :=
  match p.get_position dimension with
  | none => []
  | some position => position.path_nodes

/-- `EntityProfile.distance_from_zero`: `path_sign * path_depth`, 0 if absent. -/
def distance_from_zero (p : EntityProfile) (dimension : GroundingDimension) : Int :=
  match p.get_position dimension with
  | none => 0
  | some position => position.path_sign * position.path_depth

/-- `EntityProfile.is_descendant_of`: case-insensitive membership of the label
in the path nodes. -/
def is_descendant_of (p : EntityProfile) (ancestor_label : String)
    (dimension : GroundingDimension) : Bool :=
  match p.get_position dimension with
  | none => false
  | some position =>
      (position.path_nodes.map strLower).contains (strLower ancestor_label)

/-- Walk two node lists in lock-step, case-insensitively; return the last node
(from the first list) at which they still agree.  This mirrors the indexed
loop of `EntityProfile.shared_ancestor`: a mismatch at index `i` returns node
`i - 1` of the first path when `i > 0` (here: the node remembered by the outer
call), and when one path is exhausted the last agreeing node is returned. -/
def sharedAncestorNodes : List String → List String → Option String
  | a :: as, b :: bs =>
      if strLower a = strLower b then
        match sharedAncestorNodes as bs with
        | some r => some r
        | none => some a
      else none
  | _, _ => none

/-- `EntityProfile.shared_ancestor`: lowest common ancestor of two profiles in
a dimension tree, `none` if either lacks the dimension. -/
def shared_ancestor (p other : EntityProfile) (dimension : GroundingDimension) :
    Option String :=
  match p.get_position dimension, other.get_position dimension with
  | some self_pos, some other_pos =>
      sharedAncestorNodes self_pos.path_nodes other_pos.path_nodes
  | _, _ => none

/-- Length of the case-insensitive longest common prefix of two node lists;
mirrors the `common_depth` loop of `EntityProfile.hierarchical_distance`. -/
def commonDepth : List String → List String → Nat
  | a :: as, b :: bs =>
      if strLower a = strLower b then commonDepth as bs + 1 else 0
  | _, _ => 0

/-- `EntityProfile.hierarchical_distance`: sum of the two remaining depths past
the common prefix, `-1` when either profile lacks the dimension or the common
prefix is empty. -/
def hierarchical_distance (p other : EntityProfile)
    (dimension : GroundingDimension) : Int :=
  match p.get_position dimension, other.get_position dimension with
  | some self_pos, some other_pos =>
      let common_depth := commonDepth self_pos.path_nodes other_pos.path_nodes
      if common_depth = 0 then -1
      else ((self_pos.path_nodes.length : Int) - common_depth) +
           ((other_pos.path_nodes.length : Int) - common_depth)
  | _, _ => -1

theorem commonDepth_le_left (a b : List String) : commonDepth a b ≤ a.length := by
  induction a generalizing b with
  | nil => simp [commonDepth]
  | cons x xs ih =>
      cases b with
      | nil => simp [commonDepth]
      | cons y ys =>
          simp only [commonDepth, List.length_cons]
          split
          · exact Nat.succ_le_succ (ih ys)
          · exact Nat.zero_le _

theorem commonDepth_le_right (a b : List String) : commonDepth a b ≤ b.length := by
  induction a generalizing b with
  | nil => simp [commonDepth]
  | cons x xs ih =>
      cases b with
      | nil => simp [commonDepth]
      | cons y ys =>
          simp only [commonDepth, List.length_cons]
          split
          · exact Nat.succ_le_succ (ih ys)
          · exact Nat.zero_le _

theorem commonDepth_self (a : List String) : commonDepth a a = a.length := by
  induction a with
  | nil => simp [commonDepth]
  | cons x xs ih => simp [commonDepth, ih]

theorem commonDepth_comm (a b : List String) : commonDepth a b = commonDepth b a := by
  induction a generalizing b with
  | nil => cases b <;> simp [commonDepth]
  | cons x xs ih =>
      cases b with
      | nil => simp [commonDepth]
      | cons y ys =>
          simp only [commonDepth]
          by_cases h : strLower x = strLower y
          · rw [if_pos h, if_pos h.symm, ih ys]
          · rw [if_neg h, if_neg (fun hh => h hh.symm)]

/-- Last element of a node list, as an option. -/
def lastNode : List String → Option String
  | [] => none
  | [x] => some x
  | _ :: x :: xs => lastNode (x :: xs)

theorem lastNode_cons_cons (x y : String) (xs : List String) :
    lastNode (x :: y :: xs) = lastNode (y :: xs) := rfl

theorem lastNode_cons_some (x : String) (xs : List String) :
    ∃ r, lastNode (x :: xs) = some r := by
  induction xs generalizing x with
  | nil => exact ⟨x, rfl⟩
  | cons y ys ih => simpa [lastNode] using ih y

theorem lastNode_map_lower (l : List String) :
    lastNode (l.map strLower) = (lastNode l).map strLower := by
  induction l with
  | nil => rfl
  | cons x xs ih =>
      cases xs with
      | nil => rfl
      | cons y ys => simpa [lastNode] using ih

/-- The lock-step walk returns exactly the last node of the case-insensitive
longest common prefix, read from the first list. -/
theorem sharedAncestorNodes_eq (a b : List String) :
    sharedAncestorNodes a b =
      if commonDepth a b = 0 then none
      else lastNode (a.take (commonDepth a b)) := by
  induction a generalizing b with
  | nil => cases b <;> simp [sharedAncestorNodes, commonDepth]
  | cons x xs ih =>
      cases b with
      | nil => simp [sharedAncestorNodes, commonDepth]
      | cons y ys =>
          by_cases hxy : strLower x = strLower y
          · simp only [sharedAncestorNodes, commonDepth, if_pos hxy, ih ys,
              Nat.succ_ne_zero, if_false]
            by_cases hc : commonDepth xs ys = 0
            · simp [hc, lastNode]
            · simp only [if_neg hc]
              cases hxs : xs with
              | nil => exact absurd (hxs ▸ rfl : commonDepth xs ys = 0) hc
              | cons z zs =>
                  have hpos : 0 < commonDepth (z :: zs) ys := by
                    have := hxs ▸ hc
                    omega
                  obtain ⟨m, hm⟩ : ∃ m, commonDepth (z :: zs) ys = m + 1 :=
                    ⟨commonDepth (z :: zs) ys - 1, by omega⟩
                  obtain ⟨r, hr⟩ := lastNode_cons_some z (zs.take m)
                  simp [hm, List.take_succ_cons, lastNode_cons_cons, hr]
          · simp [sharedAncestorNodes, commonDepth, hxy]

theorem lastNode_ne_none (l : List String) (h : l ≠ []) : lastNode l ≠ none := by
  induction l with
  | nil => exact absurd rfl h
  | cons x xs ih =>
      cases xs with
      | nil => simp [lastNode]
      | cons y ys => simpa [lastNode] using ih (by simp)

/-- If the lowered second list equals the corresponding prefix of the lowered
first list, the common depth is the length of the second list. -/
theorem commonDepth_of_lower_pref (a b : List String)
    (h : b.map strLower = (a.map strLower).take b.length) :
    commonDepth a b = b.length := by
  induction b generalizing a with
  | nil => cases a <;> simp [commonDepth]
  | cons y ys ih =>
      cases a with
      | nil => simp at h
      | cons x xs =>
          simp only [List.map_cons, List.length_cons, List.take_succ_cons,
            List.cons.injEq] at h
          simp [commonDepth, h.1.symm, ih xs h.2]

end EntityProfile

/-- C5: `hierarchical_distance(A, B, D)` is `-1` exactly when a position is
missing or the case-insensitive longest common prefix is empty; otherwise it
is the sum of the two remaining depths past that prefix, and two identical
(non-empty) full paths are at distance 0. -/
theorem EntityProfile.hierarchical_distance_spec (A B : EntityProfile)
    (d : GroundingDimension) :
    ((A.get_position d = none ∨ B.get_position d = none) →
        A.hierarchical_distance B d = -1) ∧
    (∀ pa pb, A.get_position d = some pa → B.get_position d = some pb →
      ((A.hierarchical_distance B d = -1 ↔
          commonDepth pa.path_nodes pb.path_nodes = 0) ∧
       (0 < commonDepth pa.path_nodes pb.path_nodes →
          A.hierarchical_distance B d =
            ((pa.path_nodes.length : Int) - commonDepth pa.path_nodes pb.path_nodes) +
            ((pb.path_nodes.length : Int) - commonDepth pa.path_nodes pb.path_nodes)) ∧
       (pa.path_nodes = pb.path_nodes → pa.path_nodes ≠ [] →
          A.hierarchical_distance B d = 0))) := by
  constructor
  · intro h
    rcases hA : A.get_position d with _ | pa
    · simp [hierarchical_distance, hA]
    · rcases h with h | h
      · exact absurd hA (h ▸ by simp)
      · simp [hierarchical_distance, hA, h]
  · intro pa pb hpa hpb
    have hL := commonDepth_le_left pa.path_nodes pb.path_nodes
    have hR := commonDepth_le_right pa.path_nodes pb.path_nodes
    refine ⟨?_, ?_, ?_⟩
    · by_cases hc : commonDepth pa.path_nodes pb.path_nodes = 0
      · simp [hierarchical_distance, hpa, hpb, hc]
      · simp only [hierarchical_distance, hpa, hpb, if_neg hc]
        constructor
        · intro h
          exfalso
          omega
        · intro h
          exact absurd h hc
    · intro hpos
      have hc : ¬ commonDepth pa.path_nodes pb.path_nodes = 0 := by omega
      simp [hierarchical_distance, hpa, hpb, if_neg hc]
    · intro heq hne
      have hcd : commonDepth pa.path_nodes pb.path_nodes = pb.path_nodes.length := by
        rw [heq, commonDepth_self]
      have hlen : pa.path_nodes.length = pb.path_nodes.length := by rw [heq]
      have hpos : pb.path_nodes.length ≠ 0 := by
        simpa [heq] using (List.length_pos.mpr (heq ▸ hne)).ne'
      have hc : ¬ commonDepth pa.path_nodes pb.path_nodes = 0 := by omega
      simp only [hierarchical_distance, hpa, hpb, if_neg hc]
      rw [hcd, hlen]
      ring

/-- Witness for C5 at a concrete pair of profiles. -/
def parisProfile : EntityProfile :=
  { entity := { id := "Q90", wikipedia_title := "Paris", label := "Paris" },
    positions :=
      [{ dimension := .SPATIAL, path_sign := 1, path_depth := 3,
         path_nodes := ["Earth", "Europe", "France", "Paris"],
         zero_state := "Earth" }] }

def londonProfile : EntityProfile :=
  { entity := { id := "Q84", wikipedia_title := "London", label := "London" },
    positions :=
      [{ dimension := .SPATIAL, path_sign := 1, path_depth := 3,
         path_nodes := ["Earth", "Europe", "United Kingdom", "London"],
         zero_state := "Earth" }] }

theorem hierarchical_distance_spec_witness :
    parisProfile.hierarchical_distance londonProfile .SPATIAL = 4 := by
  have h :=
    ((EntityProfile.hierarchical_distance_spec parisProfile londonProfile
        .SPATIAL).2 _ _ rfl rfl).2.1 (by decide)
  rw [h]
  decide

/-- C6: `shared_ancestor` is `none` when a position is missing, when either
path is empty, or when the first nodes differ case-insensitively; otherwise it
is the last node of the case-insensitive longest common prefix (read from the
first profile's path), and when one lowered path is a prefix of the other's
it agrees case-insensitively with the shorter path's last node. -/
theorem EntityProfile.shared_ancestor_spec (A B : EntityProfile)
    (d : GroundingDimension) :
    ((A.get_position d = none ∨ B.get_position d = none) →
        A.shared_ancestor B d = none) ∧
    (∀ pa pb, A.get_position d = some pa → B.get_position d = some pb →
      ((∀ x xs y ys, pa.path_nodes = x :: xs → pb.path_nodes = y :: ys →
          strLower x ≠ strLower y → A.shared_ancestor B d = none) ∧
       ((pa.path_nodes = [] ∨ pb.path_nodes = []) →
          A.shared_ancestor B d = none) ∧
       (0 < commonDepth pa.path_nodes pb.path_nodes →
          A.shared_ancestor B d =
            lastNode (pa.path_nodes.take (commonDepth pa.path_nodes pb.path_nodes))) ∧
       (pb.path_nodes ≠ [] →
          pb.path_nodes.map strLower =
            (pa.path_nodes.map strLower).take pb.path_nodes.length →
          (A.shared_ancestor B d).map strLower =
            (lastNode pb.path_nodes).map strLower) ∧
       (pa.path_nodes ≠ [] →
          pa.path_nodes.map strLower =
            (pb.path_nodes.map strLower).take pa.path_nodes.length →
          A.shared_ancestor B d = lastNode pa.path_nodes))) := by
  constructor
  · intro h
    rcases hA : A.get_position d with _ | pa
    · simp [shared_ancestor, hA]
    · rcases h with h | h
      · exact absurd hA (h ▸ by simp)
      · simp [shared_ancestor, hA, h]
  · intro pa pb hpa hpb
    have hkey : A.shared_ancestor B d =
        if commonDepth pa.path_nodes pb.path_nodes = 0 then none
        else lastNode (pa.path_nodes.take (commonDepth pa.path_nodes pb.path_nodes)) := by
      simp only [shared_ancestor, hpa, hpb]
      exact sharedAncestorNodes_eq _ _
    refine ⟨?_, ?_, ?_, ?_, ?_⟩
    · intro x xs y ys hx hy hne
      rw [hkey, hx, hy]
      simp [commonDepth, hne]
    · intro h
      rw [hkey]
      rcases h with h | h
      · simp [h, commonDepth]
      · rw [h]
        have : commonDepth pa.path_nodes ([] : List String) = 0 := by
          cases pa.path_nodes <;> rfl
        simp [this]
    · intro hpos
      rw [hkey, if_neg (by omega)]
    · intro hne hpref
      have hcd := commonDepth_of_lower_pref pa.path_nodes pb.path_nodes hpref
      have hbl : pb.path_nodes.length ≠ 0 := by
        simpa using (List.length_pos.mpr hne).ne'
      rw [hkey, if_neg (by omega), hcd]
      have : (pa.path_nodes.take pb.path_nodes.length).map strLower =
          pb.path_nodes.map strLower := by
        rw [List.map_take, ← hpref]
      calc (lastNode (pa.path_nodes.take pb.path_nodes.length)).map strLower
          = lastNode ((pa.path_nodes.take pb.path_nodes.length).map strLower) :=
            (lastNode_map_lower _).symm
        _ = lastNode (pb.path_nodes.map strLower) := by rw [this]
        _ = (lastNode pb.path_nodes).map strLower := lastNode_map_lower _
    · intro hne hpref
      have hswap : commonDepth pa.path_nodes pb.path_nodes = pa.path_nodes.length := by
        rw [commonDepth_comm]
        exact commonDepth_of_lower_pref pb.path_nodes pa.path_nodes hpref
      have hal : pa.path_nodes.length ≠ 0 := by
        simpa using (List.length_pos.mpr hne).ne'
      rw [hkey, if_neg (by omega), hswap, List.take_length]

theorem shared_ancestor_spec_witness :
    parisProfile.shared_ancestor londonProfile .SPATIAL = some "Europe" := by
  have h :=
    ((EntityProfile.shared_ancestor_spec parisProfile londonProfile
        .SPATIAL).2 _ _ rfl rfl).2.2.1 (by decide)
  rw [h]
  decide

/-- C7: `navigate_toward_zero` is the reverse of `navigate_from_zero`, and
both are empty when the profile has no position in the dimension. -/
theorem EntityProfile.navigate_zero_reverse_spec (p : EntityProfile)
    (d : GroundingDimension) :
    p.navigate_toward_zero d = (p.navigate_from_zero d).reverse ∧
    (p.get_position d = none →
      p.navigate_toward_zero d = [] ∧ p.navigate_from_zero d = []) := by
  cases h : p.get_position d <;>
    simp [navigate_toward_zero, navigate_from_zero, h]

theorem navigate_zero_reverse_spec_witness :
    parisProfile.navigate_toward_zero .TEMPORAL = [] ∧
    parisProfile.navigate_from_zero .TEMPORAL = [] :=
  (EntityProfile.navigate_zero_reverse_spec parisProfile .TEMPORAL).2 rfl

/-- Verification result status (verifier.py `VerificationStatus`). -/
inductive VerificationStatus where
  | SUPPORTED
  | CONTRADICTED
  | UNVERIFIABLE
  | PLAUSIBLE
deriving DecidableEq

/-- Types of claims (verifier.py `ClaimType`). -/
inductive ClaimType where
  | ATTRIBUTION
  | LOCATION
  | TEMPORAL
  | PROPERTY
  | RELATION
deriving DecidableEq

/-- Confidence threshold below which SUPPORTED/CONTRADICTED become
UNVERIFIABLE (verifier.py, 0.6). -/
def VERIFICATION_CONFIDENCE_THRESHOLD : ℚ := 0.6

/-- Result of verifying a claim (verifier.py `VerificationResult`). -/
structure VerificationResult where
  claim : String
  status : VerificationStatus
  claim_type : Option ClaimType := none
  confidence : ℚ := 0
  subject_entity : Option EntityProfile := none
  object_entity : Option EntityProfile := none
  supporting_evidence : List String := []
  contradicting_evidence : List String := []
  correction : Option String := none
  abstention_reason : Option String := none
deriving DecidableEq

namespace VerificationResult

/-- `VerificationResult.is_confident`. -/
def is_confident (r : VerificationResult) : Bool :=
  VERIFICATION_CONFIDENCE_THRESHOLD ≤ r.confidence

/-- `VerificationResult.effective_status`: downgrade SUPPORTED/CONTRADICTED to
UNVERIFIABLE when the confidence is below the threshold. -/
def effective_status (r : VerificationResult) : VerificationStatus :=
  if (r.status = .SUPPORTED ∨ r.status = .CONTRADICTED) ∧ r.is_confident = false then
    .UNVERIFIABLE
  else r.status

end VerificationResult

/-- C1: for a SUPPORTED/CONTRADICTED status, `effective_status` is
UNVERIFIABLE below confidence 0.6 and the raw status at or above it; a
PLAUSIBLE/UNVERIFIABLE status is never overridden. -/
theorem VerificationResult.effective_status_spec (r : VerificationResult) :
    ((r.status = .SUPPORTED ∨ r.status = .CONTRADICTED) →
       ((r.confidence < 0.6 → r.effective_status = .UNVERIFIABLE) ∧
        ((0.6 : ℚ) ≤ r.confidence → r.effective_status = r.status))) ∧
    ((r.status = .PLAUSIBLE ∨ r.status = .UNVERIFIABLE) →
       r.effective_status = r.status) := by
  refine ⟨fun h => ⟨fun hc => ?_, fun hc => ?_⟩, fun h => ?_⟩
  · have hb : r.is_confident = false := by
      simp only [is_confident, VERIFICATION_CONFIDENCE_THRESHOLD,
        decide_eq_false_iff_not]
      exact not_le.mpr hc
    simp [effective_status, h, hb]
  · have hb : r.is_confident = true := by
      simp only [is_confident, VERIFICATION_CONFIDENCE_THRESHOLD,
        decide_eq_true_eq]
      exact hc
    simp [effective_status, hb]
  · rcases h with h | h <;> simp [effective_status, h]

theorem effective_status_spec_witness :
    VerificationResult.effective_status
      { claim := "Paris is in Germany", status := .SUPPORTED,
        confidence := 1/2 } = .UNVERIFIABLE :=
  ((VerificationResult.effective_status_spec
      { claim := "Paris is in Germany", status := .SUPPORTED,
        confidence := 1/2 }).1 (Or.inl rfl)).1 (by norm_num)

/-! ### Entity store (store.py), modelled over in-memory tables -/

/-- Case-insensitive prefix test over character lists. -/
def startsWithCI : List Char → List Char → Bool
  | [], _ => true
  | _ :: _, [] => false
  | p :: ps, t :: ts => (p.toLower = t.toLower) && startsWithCI ps ts

/-- Case-insensitive substring test (SQL `LIKE` with wildcards on both
sides); first argument is the needle, second the haystack. -/
def containsCI : List Char → List Char → Bool
  | pat, [] => pat.isEmpty
  | pat, t :: ts => startsWithCI pat (t :: ts) || containsCI pat ts

/-- Row of the `entity_links` table. -/
structure EntityLink where
  source_id : String
  target_id : String
  relation : String
  weight : ℚ
deriving DecidableEq

/-- Row of the `anchor_dictionary` table. -/
structure AnchorEntry where
  anchor_id : Int
  label : String
  category : Option String
deriving DecidableEq

/-- Row of the `entity_anchors` table. -/
structure EntityAnchor where
  entity_id : String
  anchor_id : Int
  weight : ℚ
deriving DecidableEq

/-- Row of the `epa_values` table. -/
structure EPARow where
  entity_id : String
  evaluation : Int
  potency : Int
  activity : Int
  confidence : ℚ
deriving DecidableEq

/-- The SQLite-backed store (store.py `EntityStore`), modelled as lists of
table rows.  Query order without an `ORDER BY` is the list order. -/
structure EntityStore where
  entities : List Entity
  dimension_positions : List (String × DimensionPosition) := []
  epa_values : List EPARow := []
  property_rows : List (String × String × String) := []
  entity_links : List EntityLink := []
  anchor_dictionary : List AnchorEntry := []
  entity_anchors : List EntityAnchor := []
deriving DecidableEq

/-- Stable insertion of `x` into a list sorted by strictly descending key:
`x` goes before the first element whose key is not larger. -/
def insertByDesc (key : α → ℚ) (x : α) : List α → List α
  | [] => [x]
  | y :: ys => if key y ≤ key x then x :: y :: ys else y :: insertByDesc key x ys

/-- Stable sort by descending `key` (models `ORDER BY ... DESC` and the
stable Python `list.sort`). -/
def sortByDesc (key : α → ℚ) : List α → List α
  | [] => []
  | x :: xs => insertByDesc key x (sortByDesc key xs)

namespace EntityStore

/-- `EntityStore.get`: build the profile of an entity from the tables. -/
def get (store : EntityStore) (entity_id : String) : Option EntityProfile :=
  match store.entities.find? (fun r => r.id = entity_id) with
  | none => none
  | some row =>
      some { entity := row,
             positions :=
               (store.dimension_positions.filter (fun p => p.1 = entity_id)).map
                 Prod.snd,
             epa :=
               match store.epa_values.find? (fun e => e.entity_id = entity_id) with
               | none => {}
               | some e =>
                   { evaluation := e.evaluation, potency := e.potency,
                     activity := e.activity, confidence := e.confidence },
             properties :=
               (store.property_rows.filter (fun p => p.1 = entity_id)).map
                 (fun p => (p.2.1, p.2.2)) }

/-- `EntityStore.search`: case-insensitive substring match on the label,
optionally filtered by vital level, ranked by descending pagerank. -/
def search (store : EntityStore) (label : String) (limit : Nat)
    (min_vital_level : Option Int) : List EntityProfile :=
  let rows := store.entities.filter (fun r =>
    containsCI label.data r.label.data &&
      match min_vital_level with
      | none => true
      | some v =>
          match r.vital_level with
          | none => false
          | some vl => decide (vl ≤ v))
  ((sortByDesc (fun r => r.pagerank.getD 0) rows).take limit).filterMap
    (fun r => store.get r.id)

/-- `EntityStore.search_exact`: case-insensitive exact label match, ranked by
descending pagerank. -/
def search_exact (store : EntityStore) (label : String) (limit : Nat) :
    List EntityProfile :=
  let rows := store.entities.filter (fun r => strLower r.label = strLower label)
  ((sortByDesc (fun r => r.pagerank.getD 0) rows).take limit).filterMap
    (fun r => store.get r.id)

/-- `EntityStore.get_related`: outgoing and/or incoming links of an entity;
incoming relations are tagged with the `inverse_` marker. -/
def get_related (store : EntityStore) (entity_id : String)
    (relation : Option String) (direction : String) (limit : Nat) :
    List (EntityProfile × String × ℚ) :=
  let relOk : String → Bool := fun r =>
    match relation with
    | none => true
    | some rel => r = rel
  let outgoing :=
    if direction = "outgoing" ∨ direction = "both" then
      ((store.entity_links.filter
          (fun l => l.source_id = entity_id && relOk l.relation)).take limit).filterMap
        (fun l => (store.get l.target_id).map (fun p => (p, l.relation, l.weight)))
    else []
  let incoming :=
    if direction = "incoming" ∨ direction = "both" then
      ((store.entity_links.filter
          (fun l => l.target_id = entity_id && relOk l.relation)).take limit).filterMap
        (fun l => (store.get l.source_id).map
          (fun p => (p, "inverse_" ++ l.relation, l.weight)))
    else []
  (outgoing ++ incoming).take limit

/-- `EntityStore.get_entity_anchors`: anchors of an entity joined with the
anchor dictionary, ordered by descending weight. -/
def get_entity_anchors (store : EntityStore) (entity_id : String) :
    List (Int × String × Option String × ℚ) :=
  sortByDesc (fun t => t.2.2.2)
    ((store.entity_anchors.filter (fun ea => ea.entity_id = entity_id)).filterMap
      (fun ea =>
        (store.anchor_dictionary.find? (fun ad => ad.anchor_id = ea.anchor_id)).map
          (fun ad => (ad.anchor_id, ad.label, ad.category, ea.weight))))

/-- `EntityStore.get_entities_with_anchor`: entities sharing a semantic
anchor, ordered by descending weight, truncated to `limit`. -/
def get_entities_with_anchor (store : EntityStore) (anchor_id : Int)
    (limit : Nat) : List (String × ℚ) :=
  ((sortByDesc (fun ea => ea.weight)
      (store.entity_anchors.filter (fun ea => ea.anchor_id = anchor_id))).take
    limit).map (fun ea => (ea.entity_id, ea.weight))

theorem get_id (store : EntityStore) (entity_id : String) (p : EntityProfile)
    (h : store.get entity_id = some p) : p.entity.id = entity_id := by
  unfold get at h
  cases hf : store.entities.find? (fun r => r.id = entity_id) with
  | none => rw [hf] at h; exact absurd h (by simp)
  | some row =>
      rw [hf] at h
      have hrow := List.find?_some hf
      have : row.id = entity_id := by simpa using hrow
      cases h
      exact this

end EntityStore

/-! ### Spreading activation (spreading.py) -/

/-- Semantic banks (spreading.py `SemanticBank`). -/
inductive SemanticBank where
  | SPATIAL
  | TEMPORAL
  | MENTAL
  | SUBSTANTIVES
deriving DecidableEq

/-- Per-bank activation accumulators; stands for the Python dict keyed by the
four banks (all initialised to 0.0). -/
structure BankActivations where
  spatial : ℚ := 0
  temporal : ℚ := 0
  mental : ℚ := 0
  substantives : ℚ := 0
deriving DecidableEq

/-- Add activation to one bank (`new_banks[bank] = new_banks.get(bank, 0.0) + a`). -/
def BankActivations.add (b : BankActivations) (bank : SemanticBank) (a : ℚ) :
    BankActivations :=
  match bank with
  | .SPATIAL => { b with spatial := b.spatial + a }
  | .TEMPORAL => { b with temporal := b.temporal + a }
  | .MENTAL => { b with mental := b.mental + a }
  | .SUBSTANTIVES => { b with substantives := b.substantives + a }

/-- `ANCHOR_TO_BANK.get(category, SemanticBank.MENTAL)`. -/
def ANCHOR_TO_BANK (category : Option String) : SemanticBank :=
  match category with
  | some "SCOPE" => .MENTAL
  | some "HISTORY" => .TEMPORAL
  | some "KNOWN_FOR" => .MENTAL
  | some "GEOGRAPHY" => .SPATIAL
  | some "TYPE" => .SUBSTANTIVES
  | _ => .MENTAL

/-- Default relation weights (spreading.py `SpreadingConfig.__post_init__`). -/
def defaultRelationWeights : List (String × ℚ) :=
  [("same_as", 1), ("part_of", 0.9), ("located_in", 0.8), ("instance_of", 0.8),
   ("subclass_of", 0.7), ("capital_of", 0.8), ("created", 0.8),
   ("developed", 0.8), ("discovered", 0.8), ("invented", 0.8), ("wrote", 0.8),
   ("born_in", 0.7), ("worked_at", 0.7), ("awarded", 0.7), ("related_to", 0.5)]

/-- Configuration for spreading activation (spreading.py `SpreadingConfig`). -/
structure SpreadingConfig where
  decay : ℚ := 0.7
  threshold : ℚ := 0.15
  max_depth : Int := 2
  max_results : Nat := 50
  use_anchors : Bool := true
  anchor_decay : ℚ := 0.4
  anchor_limit : Nat := 5
  max_anchors : Nat := 10
  relation_weights : List (String × ℚ) := defaultRelationWeights
deriving DecidableEq

/-- `SpreadingConfig.get_weight`: weight of a relation type, default 0.5. -/
def SpreadingConfig.get_weight (cfg : SpreadingConfig) (relation : String) : ℚ :=
  match cfg.relation_weights.find? (fun p => p.1 = relation) with
  | some p => p.2
  | none => 0.5

/-- Entry of the `activations` dict: best activation found so far with the
path, relations and bank accumulators that achieved it. -/
structure ActivationEntry where
  activation : ℚ
  path : List String
  relations : List String
  bank_activations : BankActivations
deriving DecidableEq

/-- Item of the priority queue (`(-activation, depth, entity_id, path,
relations, bank_activations)`). -/
structure QueueItem where
  activation : ℚ
  depth : Nat
  entity_id : String
  path : List String
  relations : List String
  bank_activations : BankActivations
deriving DecidableEq

/-- Result of spreading activation (spreading.py `ActivationResult`). -/
structure ActivationResult where
  entity : EntityProfile
  activation : ℚ
  path : List String
  relations : List String
  bank_activations : BankActivations
deriving DecidableEq

/-- The mutable state of the `spread_multiple` loop. -/
structure SpreadState where
  queue : List QueueItem
  visited : List String
  activations : List (String × ActivationEntry)
deriving DecidableEq

/-- Heap priority: `a` pops before `b` (heapq orders by `(-activation, depth,
entity_id, ...)`); ties beyond the id are popped in list order. -/
def heapLt (a b : QueueItem) : Bool :=
  b.activation < a.activation ||
    (a.activation = b.activation &&
      (a.depth < b.depth ||
        (a.depth = b.depth && a.entity_id < b.entity_id)))

/-- Pop the highest-priority item (models `heappop`). -/
def popMin : List QueueItem → Option (QueueItem × List QueueItem)
  | [] => none
  | q :: qs =>
      match popMin qs with
      | none => some (q, qs)
      | some (m, rest) =>
          if heapLt m q then some (m, q :: rest) else some (q, qs)

/-- Lookup in the activations dict. -/
def lookupAct (m : List (String × ActivationEntry)) (k : String) :
    Option ActivationEntry :=
  match m.find? (fun p => p.1 = k) with
  | some p => some p.2
  | none => none

/-- Dict assignment `activations[k] = e` on an insertion-ordered
association list. -/
def updAct (m : List (String × ActivationEntry)) (k : String)
    (e : ActivationEntry) : List (String × ActivationEntry) :=
  if m.any (fun p => p.1 = k) then
    m.map (fun p => if p.1 = k then (k, e) else p)
  else m ++ [(k, e)]

/-- The update guard `current is None or new_activation > current[0]`. -/
def improves (cur : Option ActivationEntry) (a : ℚ) : Bool :=
  match cur with
  | none => true
  | some c => c.activation < a

/-- Layer 1: process one related entity of the popped item (spreading.py,
inner `for` over `get_related`). -/
def linkStep (cfg : SpreadingConfig) (it : QueueItem) (st : SpreadState)
    (nbr : EntityProfile × String × ℚ) : SpreadState :=
  let neighbor_id := nbr.1.entity.id
  let new_activation := it.activation * cfg.decay * cfg.get_weight nbr.2.1 * nbr.2.2
  if new_activation < cfg.threshold then st
  else if improves (lookupAct st.activations neighbor_id) new_activation then
    let entry : ActivationEntry :=
      { activation := new_activation, path := it.path ++ [neighbor_id],
        relations := it.relations ++ [nbr.2.1],
        bank_activations := it.bank_activations }
    { queue :=
        if st.visited.contains neighbor_id then st.queue
        else st.queue ++
          [{ activation := new_activation, depth := it.depth + 1,
             entity_id := neighbor_id, path := entry.path,
             relations := entry.relations,
             bank_activations := entry.bank_activations }],
      visited := st.visited,
      activations := updAct st.activations neighbor_id entry }
  else st

/-- Layer 2: process one entity sharing an anchor with the popped item
(spreading.py, inner `for` over `get_entities_with_anchor`). -/
def anchorStep (cfg : SpreadingConfig) (it : QueueItem)
    (anchor : Int × String × Option String × ℚ) (st : SpreadState)
    (re : String × ℚ) : SpreadState :=
  let related_id := re.1
  if related_id = it.entity_id then st
  else
    let anchor_activation := it.activation * cfg.anchor_decay * anchor.2.2.2 * re.2
    if anchor_activation < cfg.threshold then st
    else if improves (lookupAct st.activations related_id) anchor_activation then
      let bank := ANCHOR_TO_BANK anchor.2.2.1
      let new_banks := it.bank_activations.add bank anchor_activation
      let entry : ActivationEntry :=
        { activation := anchor_activation, path := it.path ++ [related_id],
          relations := it.relations ++ ["anchor:" ++ anchor.2.1],
          bank_activations := new_banks }
      { queue :=
          if st.visited.contains related_id then st.queue
          else st.queue ++
            [{ activation := anchor_activation, depth := it.depth + 1,
               entity_id := related_id, path := entry.path,
               relations := entry.relations, bank_activations := new_banks }],
        visited := st.visited,
        activations := updAct st.activations related_id entry }
    else st

/-- Layer 2 outer loop: expand up to `max_anchors` anchors of the popped item. -/
def expandAnchors (store : EntityStore) (cfg : SpreadingConfig) (it : QueueItem)
    (st : SpreadState) : SpreadState :=
  ((store.get_entity_anchors it.entity_id).take cfg.max_anchors).foldl
    (fun acc anchor =>
      (store.get_entities_with_anchor anchor.1 cfg.anchor_limit).foldl
        (anchorStep cfg it anchor) acc)
    st

/-- One iteration of the `while` loop of `spread_multiple`. -/
def spreadStep (store : EntityStore) (cfg : SpreadingConfig)
    (use_anchors : Bool) (st : SpreadState) : SpreadState :=
  match popMin st.queue with
  | none => st
  | some (it, rest) =>
      if st.visited.contains it.entity_id then { st with queue := rest }
      else
        let st1 : SpreadState :=
          { queue := rest, visited := it.entity_id :: st.visited,
            activations := st.activations }
        if cfg.max_depth ≤ (it.depth : Int) then st1
        else if it.activation < cfg.threshold then st1
        else
          let st2 := (store.get_related it.entity_id none "outgoing" 20).foldl
            (linkStep cfg it) st1
          if use_anchors then expandAnchors store cfg it st2 else st2

/-- The `while` condition `queue and len(visited) < max_results * 2`. -/
def loopGuard (cfg : SpreadingConfig) (st : SpreadState) : Bool :=
  !st.queue.isEmpty && st.visited.length < cfg.max_results * 2

/-- Fuel-indexed iteration of the loop; the fuel below is proved sufficient
for the guard to be false on exit. -/
def spreadLoop (store : EntityStore) (cfg : SpreadingConfig)
    (use_anchors : Bool) : Nat → SpreadState → SpreadState
  | 0, st => st
  | fuel + 1, st =>
      if loopGuard cfg st then
        spreadLoop store cfg use_anchors fuel (spreadStep store cfg use_anchors st)
      else st

/-- Upper bound on the number of queue pushes of a single expansion. -/
def pushBound (store : EntityStore) : Nat :=
  store.entity_links.length +
    store.entity_anchors.length * store.entity_anchors.length

/-- Fuel sufficient to drive the loop to completion. -/
def spreadFuel (store : EntityStore) (cfg : SpreadingConfig) (q0 : Nat) : Nat :=
  q0 + cfg.max_results * 2 * (1 + pushBound store) + 1

/-- Initialisation step for one source: push it on the queue and record its
initial activation (spreading.py, the `for` over `sources.items()`). -/
def initSourceStep (st : SpreadState) (p : String × ℚ) : SpreadState :=
  { queue := st.queue ++ [⟨p.2, 0, p.1, [p.1], [], {}⟩],
    visited := st.visited,
    activations := updAct st.activations p.1 ⟨p.2, [p.1], [], {}⟩ }

/-- Initialisation of the loop state from the sources dict. -/
def initState (sources : List (String × ℚ)) : SpreadState :=
  sources.foldl initSourceStep ⟨[], [], []⟩

/-- The state in which the `while` loop of `spread_multiple` exits. -/
def spreadFinal (store : EntityStore) (cfg : SpreadingConfig)
    (sources : List (String × ℚ)) (use_anchors : Bool) : SpreadState :=
  spreadLoop store cfg use_anchors
    (spreadFuel store cfg (initState sources).queue.length) (initState sources)

/-- Result construction for one entry of the final activations dict: sources
are skipped, and the profile is fetched from the store (spreading.py, the
result-building loop of `spread_multiple`). -/
def resultOfEntry (store : EntityStore) (sources : List (String × ℚ))
    (p : String × ActivationEntry) : Option ActivationResult :=
  if sources.any (fun s => s.1 = p.1) then none
  else (store.get p.1).map (fun profile =>
    { entity := profile, activation := p.2.activation, path := p.2.path,
      relations := p.2.relations, bank_activations := p.2.bank_activations })

namespace SpreadingActivation

/-- `SpreadingActivation.spread_multiple`: run the loop, drop the sources,
build profiles, sort by descending activation, truncate to `max_results`. -/
def spread_multiple (store : EntityStore) (config : SpreadingConfig)
    (sources : List (String × ℚ)) (use_anchors : Option Bool) :
    List ActivationResult :=
  let ua := use_anchors.getD config.use_anchors
  let final := spreadFinal store config sources ua
  let results := final.activations.filterMap (resultOfEntry store sources)
  (sortByDesc (fun r => r.activation) results).take config.max_results

/-- `SpreadingActivation.spread`: single-source spreading. -/
def spread (store : EntityStore) (config : SpreadingConfig) (source_id : String)
    (initial_activation : ℚ := 1) (use_anchors : Option Bool := none) :
    List ActivationResult :=
  spread_multiple store config [(source_id, initial_activation)] use_anchors

end SpreadingActivation

/-! ### Lemmas about sorting, the priority queue and the activations dict -/

theorem insertByDesc_perm (key : α → ℚ) (x : α) (l : List α) :
    (insertByDesc key x l).Perm (x :: l) := by
  induction l with
  | nil => simp [insertByDesc]
  | cons y ys ih =>
      unfold insertByDesc
      split
      · exact List.Perm.refl _
      · exact (ih.cons y).trans (List.Perm.swap x y ys)

theorem sortByDesc_perm (key : α → ℚ) (l : List α) :
    (sortByDesc key l).Perm l := by
  induction l with
  | nil => simp [sortByDesc]
  | cons x xs ih =>
      exact (insertByDesc_perm key x (sortByDesc key xs)).trans (ih.cons x)

theorem sortByDesc_length (key : α → ℚ) (l : List α) :
    (sortByDesc key l).length = l.length :=
  (sortByDesc_perm key l).length_eq

theorem insertByDesc_pairwise (key : α → ℚ) (x : α) (l : List α)
    (h : l.Pairwise (fun a b => key b ≤ key a)) :
    (insertByDesc key x l).Pairwise (fun a b => key b ≤ key a) := by
  induction l with
  | nil => simp [insertByDesc]
  | cons y ys ih =>
      unfold insertByDesc
      by_cases hxy : key y ≤ key x
      · rw [if_pos hxy]
        refine List.Pairwise.cons ?_ h
        intro z hz
        rcases List.mem_cons.mp hz with hz | hz
        · exact hz ▸ hxy
        · exact le_trans ((List.pairwise_cons.mp h).1 z hz) hxy
      · rw [if_neg hxy]
        refine List.Pairwise.cons ?_ (ih (List.pairwise_cons.mp h).2)
        intro z hz
        have hz' := (insertByDesc_perm key x ys).mem_iff.mp hz
        rcases List.mem_cons.mp hz' with hz' | hz'
        · exact hz' ▸ (lt_of_not_le hxy).le
        · exact (List.pairwise_cons.mp h).1 z hz'

theorem sortByDesc_pairwise (key : α → ℚ) (l : List α) :
    (sortByDesc key l).Pairwise (fun a b => key b ≤ key a) := by
  induction l with
  | nil => simp [sortByDesc]
  | cons x xs ih => exact insertByDesc_pairwise key x _ ih

theorem popMin_perm : ∀ (l : List QueueItem) (x : QueueItem)
    (r : List QueueItem), popMin l = some (x, r) → l.Perm (x :: r) := by
  intro l
  induction l with
  | nil => intro x r h; exact absurd h (by simp [popMin])
  | cons q qs ih =>
      intro x r h
      unfold popMin at h
      cases hqs : popMin qs with
      | none =>
          rw [hqs] at h
          dsimp only at h
          cases h
          exact List.Perm.refl _
      | some mr =>
          obtain ⟨m, rest⟩ := mr
          rw [hqs] at h
          dsimp only at h
          by_cases hlt : heapLt m q = true
          · rw [if_pos hlt] at h
            simp only [Option.some.injEq, Prod.mk.injEq] at h
            obtain ⟨h1, h2⟩ := h
            subst h1
            subst h2
            exact ((ih m rest hqs).cons q).trans (List.Perm.swap m q rest)
          · rw [if_neg hlt] at h
            cases h
            exact List.Perm.refl _

theorem popMin_isSome (l : List QueueItem) (h : l ≠ []) :
    ∃ x r, popMin l = some (x, r) := by
  cases l with
  | nil => exact absurd rfl h
  | cons q qs =>
      unfold popMin
      cases hqs : popMin qs with
      | none => exact ⟨q, qs, rfl⟩
      | some mr =>
          obtain ⟨m, rest⟩ := mr
          dsimp only
          by_cases hlt : heapLt m q = true
          · exact ⟨m, q :: rest, by rw [if_pos hlt]⟩
          · exact ⟨q, qs, by rw [if_neg hlt]⟩

theorem popMin_length (l : List QueueItem) (x : QueueItem)
    (r : List QueueItem) (h : popMin l = some (x, r)) :
    r.length + 1 = l.length := by
  have := (popMin_perm l x r h).length_eq
  simpa [Nat.add_comm] using this.symm

theorem popMin_mem (l : List QueueItem) (x : QueueItem) (r : List QueueItem)
    (h : popMin l = some (x, r)) : x ∈ l :=
  (popMin_perm l x r h).mem_iff.mpr (by simp)

theorem popMin_rest_subset (l : List QueueItem) (x : QueueItem)
    (r : List QueueItem) (h : popMin l = some (x, r)) :
    ∀ y ∈ r, y ∈ l := by
  intro y hy
  exact (popMin_perm l x r h).mem_iff.mpr (by simp [hy])

theorem foldlPreserve {α β : Type _} (f : β → α → β) (P : β → Prop)
    (hf : ∀ b a, P b → P (f b a)) :
    ∀ (l : List α) (b : β), P b → P (l.foldl f b) := by
  intro l
  induction l with
  | nil => intro b h; exact h
  | cons x xs ih => intro b h; exact ih (f b x) (hf b x h)

theorem updAct_keys_cases (m : List (String × ActivationEntry)) (k : String)
    (e : ActivationEntry) :
    (updAct m k e).map Prod.fst = m.map Prod.fst ∨
    (updAct m k e).map Prod.fst = m.map Prod.fst ++ [k] := by
  unfold updAct
  split
  · left
    rw [List.map_map]
    apply List.map_congr_left
    intro p _
    by_cases hp : p.1 = k
    · simp [hp]
    · simp [hp]
  · right
    simp

theorem updAct_keys_nodup (m : List (String × ActivationEntry)) (k : String)
    (e : ActivationEntry) (h : (m.map Prod.fst).Nodup) :
    ((updAct m k e).map Prod.fst).Nodup := by
  unfold updAct
  split
  · rename_i hany
    have : (m.map (fun p => if p.1 = k then (k, e) else p)).map Prod.fst =
        m.map Prod.fst := by
      rw [List.map_map]
      apply List.map_congr_left
      intro p _
      by_cases hp : p.1 = k
      · simp [hp]
      · simp [hp]
    rw [this]
    exact h
  · rename_i hany
    have hk : k ∉ m.map Prod.fst := by
      intro hmem
      apply hany
      rw [List.any_eq_true]
      obtain ⟨p, hp, hpk⟩ := List.mem_map.mp hmem
      exact ⟨p, hp, by simp [hpk]⟩
    simp only [List.map_append, List.map_cons, List.map_nil]
    exact List.Nodup.append h (List.nodup_singleton k)
      (by intro x hx hx'; simp at hx'; exact hk (hx' ▸ hx))

theorem updAct_keys_mem (m : List (String × ActivationEntry)) (k : String)
    (e : ActivationEntry) (x : String)
    (hx : x ∈ (updAct m k e).map Prod.fst) :
    x ∈ m.map Prod.fst ∨ x = k := by
  rcases updAct_keys_cases m k e with h | h
  · rw [h] at hx; exact Or.inl hx
  · rw [h] at hx
    rcases List.mem_append.mp hx with h' | h'
    · exact Or.inl h'
    · simp at h'; exact Or.inr h'

/-! ### Preservation and bound lemmas for the spreading loop -/

theorem linkStep_visited (cfg : SpreadingConfig) (it : QueueItem)
    (st : SpreadState) (nbr : EntityProfile × String × ℚ) :
    (linkStep cfg it st nbr).visited = st.visited := by
  unfold linkStep
  dsimp only
  split
  · rfl
  · split
    · rfl
    · rfl

theorem anchorStep_visited (cfg : SpreadingConfig) (it : QueueItem)
    (anchor : Int × String × Option String × ℚ) (st : SpreadState)
    (re : String × ℚ) :
    (anchorStep cfg it anchor st re).visited = st.visited := by
  unfold anchorStep
  dsimp only
  split
  · rfl
  · split
    · rfl
    · split
      · rfl
      · rfl

theorem linkStep_acts_nodup (cfg : SpreadingConfig) (it : QueueItem)
    (st : SpreadState) (nbr : EntityProfile × String × ℚ)
    (h : (st.activations.map Prod.fst).Nodup) :
    ((linkStep cfg it st nbr).activations.map Prod.fst).Nodup := by
  unfold linkStep
  dsimp only
  split
  · exact h
  · split
    · exact updAct_keys_nodup _ _ _ h
    · exact h

theorem anchorStep_acts_nodup (cfg : SpreadingConfig) (it : QueueItem)
    (anchor : Int × String × Option String × ℚ) (st : SpreadState)
    (re : String × ℚ) (h : (st.activations.map Prod.fst).Nodup) :
    ((anchorStep cfg it anchor st re).activations.map Prod.fst).Nodup := by
  unfold anchorStep
  dsimp only
  split
  · exact h
  · split
    · exact h
    · split
      · exact updAct_keys_nodup _ _ _ h
      · exact h

theorem linkStep_queue_len (cfg : SpreadingConfig) (it : QueueItem)
    (st : SpreadState) (nbr : EntityProfile × String × ℚ) :
    (linkStep cfg it st nbr).queue.length ≤ st.queue.length + 1 := by
  unfold linkStep
  dsimp only
  split
  · omega
  · split
    · dsimp only
      split
      · omega
      · simp
    · omega

theorem anchorStep_queue_len (cfg : SpreadingConfig) (it : QueueItem)
    (anchor : Int × String × Option String × ℚ) (st : SpreadState)
    (re : String × ℚ) :
    (anchorStep cfg it anchor st re).queue.length ≤ st.queue.length + 1 := by
  unfold anchorStep
  dsimp only
  split
  · omega
  · split
    · omega
    · split
      · dsimp only
        split
        · omega
        · simp
      · omega

theorem foldl_queue_len_by {α : Type _} (K : Nat) (f : SpreadState → α → SpreadState)
    (hf : ∀ st a, (f st a).queue.length ≤ st.queue.length + K) :
    ∀ (l : List α) (st : SpreadState),
      (l.foldl f st).queue.length ≤ st.queue.length + l.length * K := by
  intro l
  induction l with
  | nil => intro st; simp
  | cons x xs ih =>
      intro st
      have h1 := ih (f st x)
      have h2 := hf st x
      have : (xs.length + 1) * K = xs.length * K + K := by ring
      simp only [List.foldl_cons, List.length_cons]
      omega

theorem get_entities_with_anchor_len (store : EntityStore) (anchor_id : Int)
    (limit : Nat) :
    (store.get_entities_with_anchor anchor_id limit).length ≤
      store.entity_anchors.length := by
  unfold EntityStore.get_entities_with_anchor
  rw [List.length_map]
  calc (List.take limit _).length
      ≤ (sortByDesc (fun ea => ea.weight)
          (store.entity_anchors.filter (fun ea => ea.anchor_id = anchor_id))).length := by
        rw [List.length_take]; exact min_le_right _ _
    _ = (store.entity_anchors.filter (fun ea => ea.anchor_id = anchor_id)).length :=
        sortByDesc_length _ _
    _ ≤ store.entity_anchors.length := List.length_filter_le _ _

theorem get_entity_anchors_len (store : EntityStore) (entity_id : String) :
    (store.get_entity_anchors entity_id).length ≤ store.entity_anchors.length := by
  unfold EntityStore.get_entity_anchors
  rw [sortByDesc_length]
  calc (List.filterMap _ _).length
      ≤ (store.entity_anchors.filter (fun ea => ea.entity_id = entity_id)).length :=
        List.length_filterMap_le _ _
    _ ≤ store.entity_anchors.length := List.length_filter_le _ _

theorem get_related_out_len (store : EntityStore) (entity_id : String) :
    (store.get_related entity_id none "outgoing" 20).length ≤
      store.entity_links.length := by
  unfold EntityStore.get_related
  have hout : (("outgoing" : String) = "outgoing" ∨ ("outgoing" : String) = "both") := by
    left; rfl
  have hin : ¬ (("outgoing" : String) = "incoming" ∨ ("outgoing" : String) = "both") := by
    decide
  dsimp only
  rw [if_pos hout, if_neg hin]
  calc (List.take 20 _).length ≤ (_ ++ []).length := by
        rw [List.length_take]; exact min_le_right _ _
    _ = (List.filterMap _ _).length := by rw [List.append_nil]
    _ ≤ (List.take 20 _).length := List.length_filterMap_le _ _
    _ ≤ (store.entity_links.filter _).length := by
        rw [List.length_take]; exact min_le_right _ _
    _ ≤ store.entity_links.length := List.length_filter_le _ _

theorem expandAnchors_visited (store : EntityStore) (cfg : SpreadingConfig)
    (it : QueueItem) (st : SpreadState) :
    (expandAnchors store cfg it st).visited = st.visited := by
  unfold expandAnchors
  refine foldlPreserve _ (fun s : SpreadState => s.visited = st.visited) ?_ _ _ rfl
  intro b a hb
  refine foldlPreserve _ (fun s : SpreadState => s.visited = st.visited) ?_ _ _ hb
  intro b' a' hb'
  rw [anchorStep_visited]
  exact hb'

theorem expandAnchors_acts_nodup (store : EntityStore) (cfg : SpreadingConfig)
    (it : QueueItem) (st : SpreadState)
    (h : (st.activations.map Prod.fst).Nodup) :
    ((expandAnchors store cfg it st).activations.map Prod.fst).Nodup := by
  unfold expandAnchors
  refine foldlPreserve _ (fun s : SpreadState => (s.activations.map Prod.fst).Nodup) ?_ _ _ h
  intro b a hb
  refine foldlPreserve _ (fun s : SpreadState => (s.activations.map Prod.fst).Nodup) ?_ _ _ hb
  intro b' a' hb'
  exact anchorStep_acts_nodup _ _ _ _ _ hb'

theorem expandAnchors_queue_len (store : EntityStore) (cfg : SpreadingConfig)
    (it : QueueItem) (st : SpreadState) :
    (expandAnchors store cfg it st).queue.length ≤
      st.queue.length + store.entity_anchors.length * store.entity_anchors.length := by
  unfold expandAnchors
  have hinner : ∀ (acc : SpreadState) (anchor : Int × String × Option String × ℚ),
      ((store.get_entities_with_anchor anchor.1 cfg.anchor_limit).foldl
        (anchorStep cfg it anchor) acc).queue.length ≤
      acc.queue.length + store.entity_anchors.length := by
    intro acc anchor
    have h1 := foldl_queue_len_by 1 (anchorStep cfg it anchor)
      (fun s a => by simpa using anchorStep_queue_len cfg it anchor s a)
      (store.get_entities_with_anchor anchor.1 cfg.anchor_limit) acc
    have h2 := get_entities_with_anchor_len store anchor.1 cfg.anchor_limit
    omega
  have houter := foldl_queue_len_by store.entity_anchors.length
    (fun acc anchor =>
      (store.get_entities_with_anchor anchor.1 cfg.anchor_limit).foldl
        (anchorStep cfg it anchor) acc)
    hinner ((store.get_entity_anchors it.entity_id).take cfg.max_anchors) st
  have hanch : ((store.get_entity_anchors it.entity_id).take cfg.max_anchors).length ≤
      store.entity_anchors.length := by
    have h1 : ((store.get_entity_anchors it.entity_id).take cfg.max_anchors).length ≤
        (store.get_entity_anchors it.entity_id).length := by
      rw [List.length_take]; exact min_le_right _ _
    exact le_trans h1 (get_entity_anchors_len store it.entity_id)
  have hmul := Nat.mul_le_mul_right store.entity_anchors.length hanch
  omega

/-- Decrease measure of the loop: queue length plus remaining visited budget
times the per-expansion push bound. -/
def stepMeasure (cfg : SpreadingConfig) (store : EntityStore)
    (st : SpreadState) : Nat :=
  st.queue.length +
    (cfg.max_results * 2 - st.visited.length) * (1 + pushBound store)

theorem foldl_linkStep_visited (cfg : SpreadingConfig) (it : QueueItem)
    (l : List (EntityProfile × String × ℚ)) (st : SpreadState) :
    (l.foldl (linkStep cfg it) st).visited = st.visited :=
  foldlPreserve _ (fun s : SpreadState => s.visited = st.visited)
    (fun b a hb => (linkStep_visited cfg it b a).trans hb) l st rfl

theorem foldl_linkStep_acts_nodup (cfg : SpreadingConfig) (it : QueueItem)
    (l : List (EntityProfile × String × ℚ)) (st : SpreadState)
    (h : (st.activations.map Prod.fst).Nodup) :
    ((l.foldl (linkStep cfg it) st).activations.map Prod.fst).Nodup :=
  foldlPreserve _ (fun s : SpreadState => (s.activations.map Prod.fst).Nodup)
    (fun _ _ hb => linkStep_acts_nodup _ _ _ _ hb) l st h

theorem loopGuard_iff (cfg : SpreadingConfig) (st : SpreadState) :
    loopGuard cfg st = true ↔
      st.queue ≠ [] ∧ st.visited.length < cfg.max_results * 2 := by
  simp [loopGuard, List.isEmpty_iff]

/-- One loop iteration strictly decreases the measure while the guard holds. -/
theorem spreadStep_measure_lt (store : EntityStore) (cfg : SpreadingConfig)
    (ua : Bool) (st : SpreadState) (hg : loopGuard cfg st = true) :
    stepMeasure cfg store (spreadStep store cfg ua st) <
      stepMeasure cfg store st := by
  obtain ⟨hq, hv⟩ := (loopGuard_iff cfg st).mp hg
  obtain ⟨it, rest, hpop⟩ := popMin_isSome st.queue hq
  have hlen := popMin_length st.queue it rest hpop
  have hsplit : (cfg.max_results * 2 - st.visited.length) * (1 + pushBound store)
      = (cfg.max_results * 2 - (st.visited.length + 1)) * (1 + pushBound store)
        + (1 + pushBound store) := by
    have h1 : cfg.max_results * 2 - st.visited.length
        = (cfg.max_results * 2 - (st.visited.length + 1)) + 1 := by omega
    rw [h1, Nat.succ_mul]
  unfold spreadStep
  rw [hpop]
  dsimp only
  by_cases hvis : st.visited.contains it.entity_id = true
  · rw [if_pos hvis]
    unfold stepMeasure
    dsimp only
    omega
  · rw [if_neg hvis]
    split
    · unfold stepMeasure
      simp only [List.length_cons]
      omega
    · split
      · unfold stepMeasure
        simp only [List.length_cons]
        omega
      · have h2 : ((store.get_related it.entity_id none "outgoing" 20).foldl
            (linkStep cfg it)
            ⟨rest, it.entity_id :: st.visited, st.activations⟩).queue.length ≤
            rest.length + store.entity_links.length := by
          have h1 := foldl_queue_len_by 1 (linkStep cfg it)
            (fun s a => by simpa using linkStep_queue_len cfg it s a)
            (store.get_related it.entity_id none "outgoing" 20)
            ⟨rest, it.entity_id :: st.visited, st.activations⟩
          have hrel := get_related_out_len store it.entity_id
          simp only [Nat.mul_one] at h1
          have hq1 : (SpreadState.mk rest (it.entity_id :: st.visited)
              st.activations).queue.length = rest.length := rfl
          omega
        split
        · have h3 := expandAnchors_queue_len store cfg it
            ((store.get_related it.entity_id none "outgoing" 20).foldl
              (linkStep cfg it) ⟨rest, it.entity_id :: st.visited, st.activations⟩)
          have hvfold : (expandAnchors store cfg it
              ((store.get_related it.entity_id none "outgoing" 20).foldl
                (linkStep cfg it)
                ⟨rest, it.entity_id :: st.visited, st.activations⟩)).visited =
              it.entity_id :: st.visited := by
            rw [expandAnchors_visited, foldl_linkStep_visited]
          unfold stepMeasure
          rw [hvfold]
          simp only [List.length_cons]
          unfold pushBound at hsplit ⊢
          omega
        · have hvfold : ((store.get_related it.entity_id none "outgoing" 20).foldl
              (linkStep cfg it)
              ⟨rest, it.entity_id :: st.visited, st.activations⟩).visited =
              it.entity_id :: st.visited := foldl_linkStep_visited _ _ _ _
          unfold stepMeasure
          rw [hvfold]
          simp only [List.length_cons]
          unfold pushBound at hsplit ⊢
          omega

/-- Enough fuel drives the loop to a state where the guard is false. -/
theorem spreadLoop_guard_false (store : EntityStore) (cfg : SpreadingConfig)
    (ua : Bool) :
    ∀ (fuel : Nat) (st : SpreadState), stepMeasure cfg store st ≤ fuel →
      loopGuard cfg (spreadLoop store cfg ua fuel st) = false := by
  intro fuel
  induction fuel with
  | zero =>
      intro st h
      have hq : st.queue.length = 0 := by
        unfold stepMeasure at h
        omega
      unfold spreadLoop
      rw [loopGuard]
      simp [List.length_eq_zero.mp hq]
  | succ n ih =>
      intro st h
      unfold spreadLoop
      by_cases hg : loopGuard cfg st = true
      · rw [if_pos hg]
        apply ih
        have := spreadStep_measure_lt store cfg ua st hg
        omega
      · rw [if_neg hg]
        exact Bool.eq_false_iff.mpr hg

theorem initState_visited (sources : List (String × ℚ)) :
    (initState sources).visited = [] := by
  unfold initState
  exact foldlPreserve initSourceStep (fun s : SpreadState => s.visited = [])
    (fun b a hb => hb) sources ⟨[], [], []⟩ rfl

/-- The initial measure is below the fuel supplied by `spreadFinal`. -/
theorem initState_measure_le (store : EntityStore) (cfg : SpreadingConfig)
    (sources : List (String × ℚ)) :
    stepMeasure cfg store (initState sources) ≤
      spreadFuel store cfg (initState sources).queue.length := by
  unfold stepMeasure spreadFuel
  rw [initState_visited]
  have : cfg.max_results * 2 - ([] : List String).length ≤ cfg.max_results * 2 := by
    simp
  have hmul := Nat.mul_le_mul_right (1 + pushBound store) this
  omega

theorem linkStep_push_char (cfg : SpreadingConfig) (it : QueueItem)
    (st : SpreadState) (nbr : EntityProfile × String × ℚ) :
    (linkStep cfg it st nbr).queue = st.queue ∨
    ∃ q : QueueItem, (linkStep cfg it st nbr).queue = st.queue ++ [q] ∧
      q.entity_id ∉ st.visited ∧
      improves (lookupAct st.activations q.entity_id) q.activation = true := by
  unfold linkStep
  dsimp only
  split
  · left; rfl
  · split
    · rename_i himp
      dsimp only
      split
      · left; rfl
      · rename_i hcont
        right
        refine ⟨_, rfl, ?_, himp⟩
        intro hmem
        exact hcont (List.elem_eq_true_of_mem hmem)
    · left; rfl

theorem anchorStep_push_char (cfg : SpreadingConfig) (it : QueueItem)
    (anchor : Int × String × Option String × ℚ) (st : SpreadState)
    (re : String × ℚ) :
    (anchorStep cfg it anchor st re).queue = st.queue ∨
    ∃ q : QueueItem, (anchorStep cfg it anchor st re).queue = st.queue ++ [q] ∧
      q.entity_id ∉ st.visited ∧
      improves (lookupAct st.activations q.entity_id) q.activation = true := by
  unfold anchorStep
  dsimp only
  split
  · left; rfl
  · split
    · left; rfl
    · split
      · rename_i himp
        dsimp only
        split
        · left; rfl
        · rename_i hcont
          right
          refine ⟨_, rfl, ?_, himp⟩
          intro hmem
          exact hcont (List.elem_eq_true_of_mem hmem)
      · left; rfl

/-- While the guard holds, one iteration either marks the popped, previously
unvisited entity as visited, or (when it was already visited) only removes it
from the queue. -/
theorem spreadStep_dichotomy (store : EntityStore) (cfg : SpreadingConfig)
    (ua : Bool) (st : SpreadState) (hg : loopGuard cfg st = true) :
    ∃ it rest, popMin st.queue = some (it, rest) ∧
      ((it.entity_id ∉ st.visited ∧
        (spreadStep store cfg ua st).visited = it.entity_id :: st.visited) ∨
       (it.entity_id ∈ st.visited ∧
        spreadStep store cfg ua st = { st with queue := rest })) := by
  obtain ⟨hq, hv⟩ := (loopGuard_iff cfg st).mp hg
  obtain ⟨it, rest, hpop⟩ := popMin_isSome st.queue hq
  refine ⟨it, rest, hpop, ?_⟩
  by_cases hvis : st.visited.contains it.entity_id = true
  · right
    refine ⟨List.mem_of_elem_eq_true hvis, ?_⟩
    unfold spreadStep
    rw [hpop]
    dsimp only
    rw [if_pos hvis]
  · left
    refine ⟨fun hm => hvis (List.elem_eq_true_of_mem hm), ?_⟩
    unfold spreadStep
    rw [hpop]
    dsimp only
    rw [if_neg hvis]
    split
    · rfl
    · split
      · rfl
      · split
        · rw [expandAnchors_visited, foldl_linkStep_visited]
        · rw [foldl_linkStep_visited]

/-- C9: for every finite store and configuration the loop of
`spread_multiple` terminates (the exit state of the fueled loop falsifies the
`while` condition), each iteration either visits a new entity or only removes
a queue element, queue pushes happen only for an unvisited neighbor whose
recorded activation they strictly improve, and the loop stops once the
visited set reaches `2 * max_results`. -/
theorem SpreadingActivation.spread_loop_termination_spec
    (store : EntityStore) (cfg : SpreadingConfig)
    (sources : List (String × ℚ)) (ua : Bool) :
    loopGuard cfg (spreadFinal store cfg sources ua) = false ∧
    (∀ st : SpreadState, loopGuard cfg st = true →
        st.visited.length < cfg.max_results * 2) ∧
    (∀ st : SpreadState, loopGuard cfg st = true →
        ∃ it rest, popMin st.queue = some (it, rest) ∧
          ((it.entity_id ∉ st.visited ∧
            (spreadStep store cfg ua st).visited = it.entity_id :: st.visited) ∨
           (it.entity_id ∈ st.visited ∧
            spreadStep store cfg ua st = { st with queue := rest }))) ∧
    (∀ (it : QueueItem) (st : SpreadState) (nbr : EntityProfile × String × ℚ),
        (linkStep cfg it st nbr).queue = st.queue ∨
        ∃ q : QueueItem, (linkStep cfg it st nbr).queue = st.queue ++ [q] ∧
          q.entity_id ∉ st.visited ∧
          improves (lookupAct st.activations q.entity_id) q.activation = true) ∧
    (∀ (it : QueueItem) (anchor : Int × String × Option String × ℚ)
        (st : SpreadState) (re : String × ℚ),
        (anchorStep cfg it anchor st re).queue = st.queue ∨
        ∃ q : QueueItem, (anchorStep cfg it anchor st re).queue = st.queue ++ [q] ∧
          q.entity_id ∉ st.visited ∧
          improves (lookupAct st.activations q.entity_id) q.activation = true) := by
  refine ⟨?_, ?_, ?_, ?_, ?_⟩
  · exact spreadLoop_guard_false store cfg ua _ _
      (initState_measure_le store cfg sources)
  · exact fun st hg => ((loopGuard_iff cfg st).mp hg).2
  · exact fun st hg => spreadStep_dichotomy store cfg ua st hg
  · exact fun it st nbr => linkStep_push_char cfg it st nbr
  · exact fun it anchor st re => anchorStep_push_char cfg it anchor st re

/-- A two-entity store with one link, used by concrete witnesses. -/
def witnessStore : EntityStore :=
  { entities := [{ id := "Q1", wikipedia_title := "A", label := "A" },
                 { id := "Q2", wikipedia_title := "B", label := "B" }],
    entity_links :=
      [{ source_id := "Q1", target_id := "Q2", relation := "related_to",
         weight := 1 }] }

def witnessConfig : SpreadingConfig := { max_results := 2 }

def witnessState : SpreadState := ⟨[⟨1, 0, "Q1", ["Q1"], [], {}⟩], [], []⟩

def witnessItem : QueueItem := ⟨1, 0, "Q1", ["Q1"], [], {}⟩

def witnessProfileB : EntityProfile :=
  { entity := { id := "Q2", wikipedia_title := "B", label := "B" } }

theorem spread_loop_termination_spec_witness :
    loopGuard witnessConfig
      (spreadFinal witnessStore witnessConfig [("Q1", 1)] false) = false ∧
    witnessState.visited.length < witnessConfig.max_results * 2 ∧
    (∃ it rest, popMin witnessState.queue = some (it, rest) ∧
      ((it.entity_id ∉ witnessState.visited ∧
        (spreadStep witnessStore witnessConfig false witnessState).visited =
          it.entity_id :: witnessState.visited) ∨
       (it.entity_id ∈ witnessState.visited ∧
        spreadStep witnessStore witnessConfig false witnessState =
          { witnessState with queue := rest }))) ∧
    ((linkStep witnessConfig witnessItem witnessState
        (witnessProfileB, "related_to", 1)).queue = witnessState.queue ∨
      ∃ q : QueueItem,
        (linkStep witnessConfig witnessItem witnessState
          (witnessProfileB, "related_to", 1)).queue = witnessState.queue ++ [q] ∧
        q.entity_id ∉ witnessState.visited ∧
        improves (lookupAct witnessState.activations q.entity_id)
          q.activation = true) ∧
    ((anchorStep witnessConfig witnessItem (1, "anchor", some "GEOGRAPHY", 1)
        witnessState ("Q2", 1)).queue = witnessState.queue ∨
      ∃ q : QueueItem,
        (anchorStep witnessConfig witnessItem (1, "anchor", some "GEOGRAPHY", 1)
          witnessState ("Q2", 1)).queue = witnessState.queue ++ [q] ∧
        q.entity_id ∉ witnessState.visited ∧
        improves (lookupAct witnessState.activations q.entity_id)
          q.activation = true) := by
  have h := SpreadingActivation.spread_loop_termination_spec witnessStore
    witnessConfig [("Q1", 1)] false
  exact ⟨h.1, h.2.1 witnessState (by decide), h.2.2.1 witnessState (by decide),
    h.2.2.2.1 witnessItem witnessState (witnessProfileB, "related_to", 1),
    h.2.2.2.2 witnessItem (1, "anchor", some "GEOGRAPHY", 1) witnessState
      ("Q2", 1)⟩

/-! ### When the loop never expands anything (C10) -/

/-- An item the loop pops without expanding: depth at the limit, or
activation below the threshold. -/
def skipItem (cfg : SpreadingConfig) (q : QueueItem) : Prop :=
  cfg.max_depth ≤ (q.depth : Int) ∨ q.activation < cfg.threshold

theorem spreadStep_skip_inv (store : EntityStore) (cfg : SpreadingConfig)
    (ua : Bool) (st : SpreadState) (A : List (String × ActivationEntry))
    (hq : ∀ q ∈ st.queue, skipItem cfg q) (ha : st.activations = A) :
    (∀ q ∈ (spreadStep store cfg ua st).queue, skipItem cfg q) ∧
      (spreadStep store cfg ua st).activations = A := by
  unfold spreadStep
  cases hpop : popMin st.queue with
  | none => exact ⟨hq, ha⟩
  | some pr =>
      obtain ⟨it, rest⟩ := pr
      dsimp only
      have hit : skipItem cfg it := hq it (popMin_mem _ _ _ hpop)
      have hrest : ∀ q ∈ rest, skipItem cfg q :=
        fun q hq' => hq q (popMin_rest_subset _ _ _ hpop q hq')
      split
      · exact ⟨hrest, ha⟩
      · split
        · exact ⟨hrest, ha⟩
        · split
          · exact ⟨hrest, ha⟩
          · rename_i hdep hthr
            exact absurd hit (by
              intro hcase
              rcases hcase with h | h
              · exact hdep h
              · exact hthr h)

theorem spreadLoop_skip (store : EntityStore) (cfg : SpreadingConfig)
    (ua : Bool) (A : List (String × ActivationEntry)) :
    ∀ (fuel : Nat) (st : SpreadState),
      (∀ q ∈ st.queue, skipItem cfg q) → st.activations = A →
      (spreadLoop store cfg ua fuel st).activations = A := by
  intro fuel
  induction fuel with
  | zero => exact fun st _ ha => ha
  | succ n ih =>
      intro st hq ha
      unfold spreadLoop
      split
      · obtain ⟨hq', ha'⟩ := spreadStep_skip_inv store cfg ua st A hq ha
        exact ih _ hq' ha'
      · exact ha

theorem initState_queue (sources : List (String × ℚ)) :
    (initState sources).queue =
      sources.map (fun p => (⟨p.2, 0, p.1, [p.1], [], {}⟩ : QueueItem)) := by
  have key : ∀ (l : List (String × ℚ)) (st : SpreadState),
      (l.foldl initSourceStep st).queue =
        st.queue ++ l.map (fun p => (⟨p.2, 0, p.1, [p.1], [], {}⟩ : QueueItem)) := by
    intro l
    induction l with
    | nil => intro st; simp
    | cons x xs ih =>
        intro st
        rw [List.foldl_cons, ih]
        simp [initSourceStep]
  unfold initState
  rw [key]
  simp

theorem initState_acts_keys (sources : List (String × ℚ)) :
    ∀ x ∈ (initState sources).activations.map Prod.fst,
      x ∈ sources.map Prod.fst := by
  have key : ∀ (l : List (String × ℚ)) (st : SpreadState) (x : String),
      x ∈ (l.foldl initSourceStep st).activations.map Prod.fst →
      x ∈ st.activations.map Prod.fst ∨ x ∈ l.map Prod.fst := by
    intro l
    induction l with
    | nil => exact fun st x hx => Or.inl hx
    | cons p ps ih =>
        intro st x hx
        rw [List.foldl_cons] at hx
        rcases ih (initSourceStep st p) x hx with h | h
        · have h2 : x ∈ (updAct st.activations p.1
              ⟨p.2, [p.1], [], {}⟩).map Prod.fst := h
          rcases updAct_keys_mem st.activations p.1 _ x h2 with h' | h'
          · exact Or.inl h'
          · exact Or.inr (by simp [h'])
        · exact Or.inr (by simp [h])
  intro x hx
  unfold initState at hx
  rcases key sources ⟨[], [], []⟩ x hx with h | h
  · simp at h
  · exact h

theorem initState_acts_nodup (sources : List (String × ℚ)) :
    ((initState sources).activations.map Prod.fst).Nodup := by
  unfold initState
  exact foldlPreserve initSourceStep
    (fun s : SpreadState => (s.activations.map Prod.fst).Nodup)
    (fun b a hb => updAct_keys_nodup _ _ _ hb) sources ⟨[], [], []⟩ (by simp)

/-- C10: with a non-positive `max_depth`, or all initial activations strictly
below the threshold, the loop activates nothing beyond the sources and
`spread_multiple` returns the empty list. -/
theorem SpreadingActivation.spread_multiple_empty_spec
    (store : EntityStore) (cfg : SpreadingConfig)
    (sources : List (String × ℚ)) (ua : Option Bool)
    (h : cfg.max_depth ≤ 0 ∨ ∀ p ∈ sources, p.2 < cfg.threshold) :
    (spreadFinal store cfg sources (ua.getD cfg.use_anchors)).activations =
      (initState sources).activations ∧
    SpreadingActivation.spread_multiple store cfg sources ua = [] := by
  have hskip : ∀ q ∈ (initState sources).queue, skipItem cfg q := by
    intro q hqmem
    rw [initState_queue] at hqmem
    obtain ⟨p, hp, rfl⟩ := List.mem_map.mp hqmem
    rcases h with h | h
    · left; simpa using h
    · right; simpa using h p hp
  have hacts : (spreadFinal store cfg sources
      (ua.getD cfg.use_anchors)).activations = (initState sources).activations := by
    unfold spreadFinal
    exact spreadLoop_skip store cfg _ _ _ _ hskip rfl
  refine ⟨hacts, ?_⟩
  unfold SpreadingActivation.spread_multiple
  dsimp only
  rw [hacts]
  have hfm : (initState sources).activations.filterMap
      (resultOfEntry store sources) = [] := by
    apply List.filterMap_eq_nil_iff.mpr
    intro p hp
    have hk : p.1 ∈ sources.map Prod.fst :=
      initState_acts_keys sources p.1 (List.mem_map.mpr ⟨p, hp, rfl⟩)
    obtain ⟨s, hs, hseq⟩ := List.mem_map.mp hk
    have hany : sources.any (fun s => s.1 = p.1) = true :=
      List.any_eq_true.mpr ⟨s, hs, by simp [hseq]⟩
    unfold resultOfEntry
    rw [if_pos hany]
  rw [hfm]
  simp [sortByDesc]

def witnessConfigZeroDepth : SpreadingConfig := { max_depth := 0, max_results := 2 }

theorem spread_multiple_empty_spec_witness :
    (spreadFinal witnessStore witnessConfigZeroDepth [("Q1", 1)]
       ((none : Option Bool).getD witnessConfigZeroDepth.use_anchors)).activations =
      (initState [("Q1", 1)]).activations ∧
    SpreadingActivation.spread_multiple witnessStore witnessConfigZeroDepth
      [("Q1", 1)] none = [] :=
  SpreadingActivation.spread_multiple_empty_spec witnessStore
    witnessConfigZeroDepth [("Q1", 1)] none (Or.inl (by decide))

/-! ### Shape of the result list of spread_multiple (C2) -/

theorem spreadStep_acts_nodup (store : EntityStore) (cfg : SpreadingConfig)
    (ua : Bool) (st : SpreadState)
    (h : (st.activations.map Prod.fst).Nodup) :
    ((spreadStep store cfg ua st).activations.map Prod.fst).Nodup := by
  unfold spreadStep
  cases hpop : popMin st.queue with
  | none => exact h
  | some pr =>
      obtain ⟨it, rest⟩ := pr
      dsimp only
      split
      · exact h
      · split
        · exact h
        · split
          · exact h
          · split
            · exact expandAnchors_acts_nodup _ _ _ _
                (foldl_linkStep_acts_nodup _ _ _ _ h)
            · exact foldl_linkStep_acts_nodup _ _ _ _ h

theorem spreadLoop_acts_nodup (store : EntityStore) (cfg : SpreadingConfig)
    (ua : Bool) :
    ∀ (fuel : Nat) (st : SpreadState),
      (st.activations.map Prod.fst).Nodup →
      ((spreadLoop store cfg ua fuel st).activations.map Prod.fst).Nodup := by
  intro fuel
  induction fuel with
  | zero => exact fun st h => h
  | succ n ih =>
      intro st h
      unfold spreadLoop
      split
      · exact ih _ (spreadStep_acts_nodup store cfg ua st h)
      · exact h

theorem spreadFinal_acts_nodup (store : EntityStore) (cfg : SpreadingConfig)
    (sources : List (String × ℚ)) (ua : Bool) :
    ((spreadFinal store cfg sources ua).activations.map Prod.fst).Nodup := by
  unfold spreadFinal
  exact spreadLoop_acts_nodup store cfg ua _ _ (initState_acts_nodup sources)

theorem resultOfEntry_some (store : EntityStore) (sources : List (String × ℚ))
    (p : String × ActivationEntry) (r : ActivationResult)
    (h : resultOfEntry store sources p = some r) :
    r.entity.entity.id = p.1 ∧ sources.any (fun s => s.1 = p.1) = false := by
  unfold resultOfEntry at h
  by_cases hany : sources.any (fun s => s.1 = p.1) = true
  · rw [if_pos hany] at h
    simp at h
  · rw [if_neg hany] at h
    cases hget : store.get p.1 with
    | none => rw [hget] at h; simp at h
    | some prof =>
        rw [hget] at h
        simp only [Option.map_some', Option.some.injEq] at h
        subst h
        exact ⟨EntityStore.get_id store p.1 prof hget,
          Bool.eq_false_iff.mpr hany⟩

theorem filterMap_map_sublist {α β γ : Type _} (f : α → Option β) (g : β → γ)
    (h : α → γ) (hf : ∀ a b, f a = some b → g b = h a) :
    ∀ l : List α, List.Sublist ((l.filterMap f).map g) (l.map h) := by
  intro l
  induction l with
  | nil => simp
  | cons x xs ih =>
      cases hx : f x with
      | none =>
          rw [List.filterMap_cons_none hx, List.map_cons]
          exact List.Sublist.cons _ ih
      | some b =>
          rw [List.filterMap_cons_some hx, List.map_cons, List.map_cons,
            hf x b hx]
          exact List.Sublist.cons₂ _ ih

/-- C2: the results of `spread_multiple` never contain a source entity,
contain each entity id at most once, are non-increasing in activation, and
number at most `max_results`. -/
theorem SpreadingActivation.spread_multiple_results_spec
    (store : EntityStore) (cfg : SpreadingConfig)
    (sources : List (String × ℚ)) (ua : Option Bool) :
    (∀ r ∈ SpreadingActivation.spread_multiple store cfg sources ua,
        r.entity.entity.id ∉ sources.map Prod.fst) ∧
    ((SpreadingActivation.spread_multiple store cfg sources ua).map
        (fun r => r.entity.entity.id)).Nodup ∧
    (SpreadingActivation.spread_multiple store cfg sources ua).Pairwise
        (fun a b => b.activation ≤ a.activation) ∧
    (SpreadingActivation.spread_multiple store cfg sources ua).length ≤
        cfg.max_results := by
  have hnodupk := spreadFinal_acts_nodup store cfg sources (ua.getD cfg.use_anchors)
  have hdef : SpreadingActivation.spread_multiple store cfg sources ua =
      (sortByDesc (fun r => r.activation)
        ((spreadFinal store cfg sources (ua.getD cfg.use_anchors)).activations.filterMap
          (resultOfEntry store sources))).take cfg.max_results := rfl
  refine ⟨?_, ?_, ?_, ?_⟩
  · intro r hr
    rw [hdef] at hr
    have hr1 := List.take_subset _ _ hr
    have hr2 : r ∈ (spreadFinal store cfg sources
        (ua.getD cfg.use_anchors)).activations.filterMap
        (resultOfEntry store sources) :=
      ((sortByDesc_perm (fun r => r.activation) _).mem_iff).mp hr1
    obtain ⟨p, hp, hsome⟩ := List.mem_filterMap.mp hr2
    obtain ⟨hid, hany⟩ := resultOfEntry_some store sources p r hsome
    intro hmem
    obtain ⟨s, hs, hseq⟩ := List.mem_map.mp hmem
    have htrue : sources.any (fun s => s.1 = p.1) = true :=
      List.any_eq_true.mpr ⟨s, hs, by simp [hseq, hid]⟩
    rw [htrue] at hany
    exact absurd hany (by simp)
  · have hsub := filterMap_map_sublist (resultOfEntry store sources)
      (fun r => r.entity.entity.id) Prod.fst
      (fun a b hb => (resultOfEntry_some store sources a b hb).1)
      (spreadFinal store cfg sources (ua.getD cfg.use_anchors)).activations
    have h1 := List.Nodup.sublist hsub hnodupk
    have hperm := (sortByDesc_perm (fun r => r.activation)
      ((spreadFinal store cfg sources (ua.getD cfg.use_anchors)).activations.filterMap
        (resultOfEntry store sources))).map (fun r => r.entity.entity.id)
    have h2 := hperm.symm.nodup h1
    rw [hdef, List.map_take]
    exact List.Nodup.sublist (List.take_sublist _ _) h2
  · rw [hdef]
    exact List.Pairwise.sublist (List.take_sublist _ _)
      (sortByDesc_pairwise _ _)
  · rw [hdef]
    rw [List.length_take]
    exact Nat.min_le_left _ _

theorem spread_multiple_results_spec_witness :
    ((SpreadingActivation.spread_multiple witnessStore witnessConfig
        [("Q1", 1)] (some false)).map (fun r => r.entity.entity.id)).Nodup ∧
    (SpreadingActivation.spread_multiple witnessStore witnessConfig
        [("Q1", 1)] (some false)).Pairwise
        (fun a b => b.activation ≤ a.activation) ∧
    (SpreadingActivation.spread_multiple witnessStore witnessConfig
        [("Q1", 1)] (some false)).length ≤ witnessConfig.max_results := by
  have h := SpreadingActivation.spread_multiple_results_spec witnessStore
    witnessConfig [("Q1", 1)] (some false)
  exact ⟨h.2.1, h.2.2.1, h.2.2.2⟩

/-! ### Claim verification (verifier.py) -/

/-- Case-sensitive prefix test over character lists. -/
def startsWithCS : List Char → List Char → Bool
  | [], _ => true
  | _ :: _, [] => false
  | p :: ps, t :: ts => (p = t) && startsWithCS ps ts

/-- Case-sensitive substring test (Python `in` on strings). -/
def containsCS : List Char → List Char → Bool
  | pat, [] => pat.isEmpty
  | pat, t :: ts => startsWithCS pat (t :: ts) || containsCS pat ts

/-- Python `str.strip()` (whitespace on both ends). -/
def stripStr (s : String) : String :=
  String.mk
    (((s.data.dropWhile Char.isWhitespace).reverse.dropWhile
      Char.isWhitespace).reverse)

/-- Python `str.rstrip(".")`. -/
def rstripDot (s : String) : String :=
  String.mk ((s.data.reverse.dropWhile (fun c => c = '.')).reverse)

/-- Helper for Python `str.title()`: uppercase a letter that follows a
non-letter, lowercase the rest. -/
def titleAux : Bool → List Char → List Char
  | _, [] => []
  | prevAlpha, c :: cs =>
      if c.isAlpha then
        (if prevAlpha then c.toLower else c.toUpper) :: titleAux true cs
      else c :: titleAux false cs

/-- Python `str.title()` for the ASCII strings handled by the code. -/
def titleCase (s : String) : String := String.mk (titleAux false s.data)

/-- Tokens of the claim-parsing regular expressions of verifier.py.  Each
token consumes at least one character; captures keep the original casing of
the input while matching case-insensitively (`re.IGNORECASE`). -/
inductive RTok where
  | lazyPlus
  | greedyPlus
  | lit (w : String)
  | ws
  | alt (opts : List String) (capture : Bool)
  | digits4
deriving DecidableEq

mutual

/-- Backtracking matcher for a token list against a character list, anchored
at the start (`re.match`); the trailing input may be left unconsumed.  The
`fuel` strictly bounds the recursion depth and is chosen large enough by
`matchPattern`. -/
def matchToks : Nat → List RTok → List Char → Option (List String)
  | 0, _, _ => none
  | _ + 1, [], _ => some []
  | f + 1, RTok.lit w :: rest, s =>
      if startsWithCI w.data s then matchToks f rest (s.drop w.data.length)
      else none
  | f + 1, RTok.ws :: rest, s =>
      matchWs f rest s ((s.takeWhile Char.isWhitespace).length)
  | f + 1, RTok.alt opts cap :: rest, s => matchAlt f opts cap rest s
  | f + 1, RTok.digits4 :: rest, s =>
      if (s.take 4).length = 4 && (s.take 4).all Char.isDigit then
        (matchToks f rest (s.drop 4)).map (fun gs => String.mk (s.take 4) :: gs)
      else none
  | f + 1, RTok.lazyPlus :: rest, s => matchLazy f rest s 1
  | f + 1, RTok.greedyPlus :: rest, s => matchGreedy f rest s s.length

/-- Greedy `\s+`: consume the longest whitespace run first, backtracking down
to one character. -/
def matchWs : Nat → List RTok → List Char → Nat → Option (List String)
  | 0, _, _, _ => none
  | _ + 1, _, _, 0 => none
  | f + 1, rest, s, k + 1 =>
      match matchToks f rest (s.drop (k + 1)) with
      | some gs => some gs
      | none => matchWs f rest s k

/-- Alternation of literal options, tried left to right. -/
def matchAlt : Nat → List String → Bool → List RTok → List Char →
    Option (List String)
  | 0, _, _, _, _ => none
  | _ + 1, [], _, _, _ => none
  | f + 1, w :: opts, cap, rest, s =>
      if startsWithCI w.data s then
        match matchToks f rest (s.drop w.data.length) with
        | some gs =>
            some (if cap then String.mk (s.take w.data.length) :: gs else gs)
        | none => matchAlt f opts cap rest s
      else matchAlt f opts cap rest s

/-- Lazy `(.+?)`: shortest capture first; `.` does not cross a newline. -/
def matchLazy : Nat → List RTok → List Char → Nat → Option (List String)
  | 0, _, _, _ => none
  | f + 1, rest, s, k =>
      if s.length < k then none
      else if (s.take k).any (fun c => c = '\n') then none
      else
        match matchToks f rest (s.drop k) with
        | some gs => some (String.mk (s.take k) :: gs)
        | none => matchLazy f rest s (k + 1)

/-- Greedy `(.+)`: longest capture first; `.` does not cross a newline. -/
def matchGreedy : Nat → List RTok → List Char → Nat → Option (List String)
  | 0, _, _, _ => none
  | _ + 1, _, _, 0 => none
  | f + 1, rest, s, k + 1 =>
      if (s.take (k + 1)).any (fun c => c = '\n') then matchGreedy f rest s k
      else
        match matchToks f rest (s.drop (k + 1)) with
        | some gs => some (String.mk (s.take (k + 1)) :: gs)
        | none => matchGreedy f rest s k

end

/-- Run a pattern with fuel that dominates the matcher's recursion depth. -/
def matchPattern (pat : List RTok) (s : List Char) : Option (List String) :=
  matchToks ((pat.length + 1) * (s.length + 2)) pat s

/-- The ordered claim patterns of verifier.py `RELATION_PATTERNS`. -/
def RELATION_PATTERNS : List (ClaimType × List (List RTok)) :=
  [(ClaimType.ATTRIBUTION,
     [[RTok.lazyPlus, RTok.ws,
       RTok.alt ["created", "wrote", "invented", "developed", "discovered",
                 "founded", "built"] true, RTok.ws, RTok.greedyPlus],
      [RTok.lazyPlus, RTok.ws, RTok.lit "is", RTok.ws, RTok.lit "the", RTok.ws,
       RTok.alt ["creator", "inventor", "author", "founder"] true, RTok.ws,
       RTok.lit "of", RTok.ws, RTok.greedyPlus]]),
   (ClaimType.LOCATION,
     [[RTok.lazyPlus, RTok.ws, RTok.lit "is", RTok.ws,
       RTok.alt ["in", "located in", "situated in"] true, RTok.ws,
       RTok.greedyPlus],
      [RTok.lazyPlus, RTok.ws, RTok.lit "is", RTok.ws, RTok.lit "the", RTok.ws,
       RTok.lit "capital", RTok.ws, RTok.lit "of", RTok.ws, RTok.greedyPlus]]),
   (ClaimType.TEMPORAL,
     [[RTok.lazyPlus, RTok.ws, RTok.lit "was", RTok.ws, RTok.lit "born",
       RTok.ws, RTok.lit "in", RTok.ws, RTok.digits4],
      [RTok.lazyPlus, RTok.ws, RTok.alt ["happened", "occurred"] true, RTok.ws,
       RTok.lit "in", RTok.ws, RTok.digits4]]),
   (ClaimType.PROPERTY,
     [[RTok.lazyPlus, RTok.ws, RTok.lit "is", RTok.ws,
       RTok.alt ["a", "an"] false, RTok.ws, RTok.greedyPlus],
      [RTok.lazyPlus, RTok.ws, RTok.lit "was", RTok.ws,
       RTok.alt ["a", "an"] false, RTok.ws, RTok.greedyPlus]])]

/-- Parsed claim: `(claim_type, subject, relation, object)`. -/
structure ParsedClaim where
  claim_type : ClaimType
  subject : String
  relation : String
  object : Option String
deriving DecidableEq

/-- Build the parse result from the captured groups (`_parse_claim`, the body
of `if len(groups) >= 2`). -/
def mkParsed (ct : ClaimType) (gs : List String) : Option ParsedClaim :=
  if gs.length ≥ 2 then
    some { claim_type := ct,
           subject := stripStr (gs.headD ""),
           relation := if gs.length > 2 then stripStr ((gs.drop 1).headD "")
                       else "",
           object := some (stripStr (gs.getLastD "")) }
  else none

/-- Try the patterns of one claim type in order. -/
def tryPatterns (ct : ClaimType) : List (List RTok) → List Char →
    Option ParsedClaim
  | [], _ => none
  | pat :: rest, s =>
      match matchPattern pat s with
      | some gs =>
          match mkParsed ct gs with
          | some pc => some pc
          | none => tryPatterns ct rest s
      | none => tryPatterns ct rest s

/-- Try the claim types in dict order; first match wins. -/
def parseTypes : List (ClaimType × List (List RTok)) → List Char →
    Option ParsedClaim
  | [], _ => none
  | (ct, pats) :: rest, s =>
      match tryPatterns ct pats s with
      | some pc => some pc
      | none => parseTypes rest s

/-- Verb-to-relation-name table (verifier.py `CLAIM_TO_RELATIONS`). -/
def CLAIM_TO_RELATIONS : List (String × List String) :=
  [("created", ["creator_of", "created", "invented", "RelatedTo"]),
   ("wrote", ["author_of", "wrote", "RelatedTo"]),
   ("invented", ["inventor_of", "invented", "created", "RelatedTo"]),
   ("discovered", ["discoverer_of", "discovered", "RelatedTo"]),
   ("founded", ["founder_of", "founded", "RelatedTo"]),
   ("built", ["builder_of", "built", "constructed", "RelatedTo"]),
   ("capital", ["capital_of", "AtLocation", "PartOf"]),
   ("located", ["located_in", "part_of", "AtLocation", "PartOf"])]

/-- Location-flavored relation names (verifier.py `LOCATION_RELATIONS`). -/
def LOCATION_RELATIONS : List String :=
  ["atlocation", "partof", "locatedin", "isin", "part_of", "located_in", "in"]

/-- `normalize_relation`: lowercase and drop underscores, dashes, spaces. -/
def normalize_relation (rel : String) : String :=
  String.mk ((strLower rel).data.filter
    (fun c => !(c = '_' || c = '-' || c = ' ')))

/-- Python `path_nodes[-3:]`. -/
def lastSlice (n : Nat) (l : List String) : List String :=
  l.drop (l.length - n)

namespace ClaimVerifier

/-- `ClaimVerifier._parse_claim`. -/
def parse_claim (claim : String) : Option ParsedClaim :=
  let cleaned := rstripDot (stripStr claim)
  parseTypes RELATION_PATTERNS cleaned.data

/-- The article prefixes stripped by `_ground_entity`. -/
def articles : List String := ["the ", "a ", "an ", "The ", "A ", "An "]

/-- Strip the first matching leading article (the normalization loop with
`break`). -/
def stripArticleAux : List String → String → String
  | [], s => s
  | art :: rest, s =>
      if startsWithCS art.data s.data then String.mk (s.data.drop art.data.length)
      else stripArticleAux rest s

/-- Try the variations in order: exact label match first, then fuzzy. -/
def groundVariants (store : EntityStore) : List String → Option EntityProfile
  | [] => none
  | v :: rest =>
      match store.search_exact v 5 with
      | p :: _ => some p
      | [] =>
          match store.search v 5 none with
          | p :: _ => some p
          | [] => groundVariants store rest

/-- `ClaimVerifier._ground_entity`. -/
def ground_entity (store : EntityStore) (mention : String) :
    Option EntityProfile :=
  let normalized := stripArticleAux articles (stripStr mention)
  let variations :=
    if mention = normalized then [mention, normalized, titleCase normalized]
    else [normalized, titleCase normalized, mention]
  groundVariants store variations

/-- `ClaimVerifier._verify_attribution`. -/
def verify_attribution (store : EntityStore) (claim : String)
    (subject : EntityProfile) (relation : String) (object_str : String)
    (object_entity : Option EntityProfile) : VerificationResult :=
  let related := store.get_related subject.entity.id none "outgoing" 100
  let relation_types :=
    match CLAIM_TO_RELATIONS.find? (fun p => p.1 = strLower relation) with
    | some p => p.2
    | none => [strLower relation]
  let normalized_types := relation_types.map normalize_relation
  let matches_weak : String → Bool := fun rel =>
    normalized_types.contains (normalize_relation rel) ||
    relation_types.any (fun rt => containsCS rt.data (strLower rel).data)
  let matches_relation : String → Bool := fun rel =>
    matches_weak rel || normalize_relation rel = "relatedto"
  let supporting := related.filterMap (fun t =>
    if matches_relation t.2.1 then
      match object_entity with
      | some oe =>
          if t.1.entity.id = oe.entity.id then
            some (t.2.1 ++ ": " ++ t.1.entity.label)
          else if containsCS (strLower object_str).data
              (strLower t.1.entity.label).data then
            some (t.2.1 ++ ": " ++ t.1.entity.label)
          else none
      | none =>
          if containsCS (strLower object_str).data
              (strLower t.1.entity.label).data then
            some (t.2.1 ++ ": " ++ t.1.entity.label)
          else none
    else none)
  if supporting.isEmpty = false then
    { claim := claim, status := .SUPPORTED, claim_type := some .ATTRIBUTION,
      confidence := 0.9, subject_entity := some subject,
      object_entity := object_entity, supporting_evidence := supporting }
  else
    match object_entity with
    | some oe =>
        let object_related := store.get_related oe.entity.id none "incoming" 50
        match object_related.find? (fun t =>
            matches_weak t.2.1 && !(t.1.entity.id = subject.entity.id)) with
        | some t =>
            { claim := claim, status := .CONTRADICTED,
              claim_type := some .ATTRIBUTION, confidence := 0.85,
              subject_entity := some subject, object_entity := object_entity,
              contradicting_evidence := [t.2.1 ++ ": " ++ t.1.entity.label],
              correction := some (object_str ++ " was " ++ relation ++ " by " ++
                t.1.entity.label) }
        | none =>
            { claim := claim, status := .UNVERIFIABLE,
              claim_type := some .ATTRIBUTION, confidence := 0.4,
              subject_entity := some subject, object_entity := object_entity }
    | none =>
        { claim := claim, status := .UNVERIFIABLE,
          claim_type := some .ATTRIBUTION, confidence := 0.4,
          subject_entity := some subject, object_entity := object_entity }

/-- `ClaimVerifier._verify_location`. -/
def verify_location (store : EntityStore) (claim : String)
    (subject : EntityProfile) (object_str : String)
    (object_entity : Option EntityProfile) : VerificationResult :=
  if subject.is_descendant_of object_str GroundingDimension.SPATIAL then
    { claim := claim, status := .SUPPORTED, claim_type := some .LOCATION,
      confidence := 0.95, subject_entity := some subject,
      object_entity := object_entity,
      supporting_evidence :=
        match subject.get_position GroundingDimension.SPATIAL with
        | some _ =>
            ["SPATIAL hierarchy: " ++ String.intercalate " > "
              (subject.navigate_from_zero GroundingDimension.SPATIAL)]
        | none => [] }
  else
    match subject.get_position GroundingDimension.SPATIAL with
    | some spatial_pos =>
        { claim := claim, status := .CONTRADICTED,
          claim_type := some .LOCATION, confidence := 0.8,
          subject_entity := some subject, object_entity := object_entity,
          contradicting_evidence :=
            ["SPATIAL hierarchy: " ++ String.intercalate " > "
              spatial_pos.path_nodes],
          correction := some (subject.entity.label ++ " is located in " ++
            String.intercalate " > " (lastSlice 3 spatial_pos.path_nodes)) }
    | none =>
        let related := store.get_related subject.entity.id none "outgoing" 50
        let labelMatch : EntityProfile × String × ℚ → Bool := fun t =>
          containsCS (strLower object_str).data (strLower t.1.entity.label).data
        let idMatch : EntityProfile × String × ℚ → Bool := fun t =>
          match object_entity with
          | some oe => t.1.entity.id = oe.entity.id
          | none => false
        match related.find? (fun t =>
            LOCATION_RELATIONS.contains (normalize_relation t.2.1) &&
            (labelMatch t || idMatch t)) with
        | some t =>
            if labelMatch t then
              { claim := claim, status := .SUPPORTED,
                claim_type := some .LOCATION, confidence := 0.75,
                subject_entity := some subject, object_entity := object_entity,
                supporting_evidence := [t.2.1 ++ ": " ++ t.1.entity.label] }
            else
              { claim := claim, status := .SUPPORTED,
                claim_type := some .LOCATION, confidence := 0.85,
                subject_entity := some subject, object_entity := object_entity,
                supporting_evidence :=
                  [t.2.1 ++ ": " ++ t.1.entity.label ++ " (exact match)"] }
        | none =>
            match (store.get_entity_anchors subject.entity.id).find?
                (fun a => a.2.2.1 = some "GEOGRAPHY" &&
                  containsCS (strLower object_str).data
                    (strLower a.2.1).data) with
            | some a =>
                { claim := claim, status := .PLAUSIBLE,
                  claim_type := some .LOCATION, confidence := 0.6,
                  subject_entity := some subject,
                  object_entity := object_entity,
                  supporting_evidence := ["Geographic anchor: " ++ a.2.1] }
            | none =>
                { claim := claim, status := .UNVERIFIABLE,
                  claim_type := some .LOCATION, confidence := 0.3,
                  subject_entity := some subject,
                  object_entity := object_entity }

/-- `ClaimVerifier._verify_property`. -/
def verify_property (store : EntityStore) (claim : String)
    (subject : EntityProfile) (property_str : String) : VerificationResult :=
  if subject.is_descendant_of property_str GroundingDimension.TAXONOMIC then
    { claim := claim, status := .SUPPORTED, claim_type := some .PROPERTY,
      confidence := 0.9, subject_entity := some subject,
      supporting_evidence :=
        ["TAXONOMIC hierarchy: " ++ String.intercalate " > "
          (subject.navigate_from_zero GroundingDimension.TAXONOMIC)] }
  else if subject.is_descendant_of property_str GroundingDimension.DOMAIN then
    { claim := claim, status := .SUPPORTED, claim_type := some .PROPERTY,
      confidence := 0.85, subject_entity := some subject,
      supporting_evidence :=
        ["DOMAIN hierarchy: " ++ String.intercalate " > "
          (subject.navigate_from_zero GroundingDimension.DOMAIN)] }
  else
    let descCheck : Option VerificationResult :=
      match subject.entity.description with
      | some desc =>
          if desc.isEmpty then none
          else if containsCS (strLower property_str).data
              (strLower desc).data then
            some
              { claim := claim, status := .SUPPORTED,
                claim_type := some .PROPERTY, confidence := 0.8,
                subject_entity := some subject,
                supporting_evidence := ["Description: " ++ desc] }
          else none
      | none => none
    match descCheck with
    | some r => r
    | none =>
        match subject.properties.find? (fun kv =>
            containsCS (strLower property_str).data (strLower kv.2).data) with
        | some kv =>
            { claim := claim, status := .SUPPORTED,
              claim_type := some .PROPERTY, confidence := 0.75,
              subject_entity := some subject,
              supporting_evidence := [kv.1 ++ ": " ++ kv.2] }
        | none =>
            match (store.get_entity_anchors subject.entity.id).find?
                (fun a => a.2.2.1 = some "KNOWN_FOR" &&
                  containsCS (strLower property_str).data
                    (strLower a.2.1).data) with
            | some a =>
                { claim := claim, status := .PLAUSIBLE,
                  claim_type := some .PROPERTY, confidence := 0.65,
                  subject_entity := some subject,
                  supporting_evidence := ["Known for: " ++ a.2.1] }
            | none =>
                { claim := claim, status := .UNVERIFIABLE,
                  claim_type := some .PROPERTY, confidence := 0.3,
                  subject_entity := some subject }

set_option linter.unusedVariables false in
/-- `ClaimVerifier._verify_generic`: spreading activation fallback.  The
spreader of `ClaimVerifier.__init__` carries the default configuration; the
`relation` argument is unused, as in the source. -/
def verify_generic (store : EntityStore) (claim : String)
    (claim_type : ClaimType) (subject : EntityProfile) (relation : String)
    (object_entity : Option EntityProfile) : VerificationResult :=
  match object_entity with
  | none =>
      { claim := claim, status := .UNVERIFIABLE, claim_type := some claim_type,
        confidence := 0.2, subject_entity := some subject }
  | some oe =>
      let results := SpreadingActivation.spread store {} subject.entity.id 1 none
      match results.find? (fun r => r.entity.entity.id = oe.entity.id) with
      | some r =>
          { claim := claim, status := .PLAUSIBLE,
            claim_type := some claim_type, confidence := r.activation,
            subject_entity := some subject, object_entity := object_entity,
            supporting_evidence :=
              ["Activation path: " ++ String.intercalate " -> " r.path] }
      | none =>
          { claim := claim, status := .UNVERIFIABLE,
            claim_type := some ClaimType.ATTRIBUTION, confidence := 0.3,
            subject_entity := some subject, object_entity := object_entity }

/-- `ClaimVerifier.verify`. -/
def verify (store : EntityStore) (claim : String) : VerificationResult :=
  match parse_claim claim with
  | none => { claim := claim, status := .UNVERIFIABLE, confidence := 0 }
  | some parsed =>
      let subject_entity := ground_entity store parsed.subject
      let object_entity :=
        match parsed.object with
        | some o => if o.isEmpty then none else ground_entity store o
        | none => none
      match subject_entity with
      | none =>
          { claim := claim, status := .UNVERIFIABLE,
            claim_type := some parsed.claim_type, confidence := 0.3 }
      | some subject =>
          match parsed.claim_type with
          | .ATTRIBUTION =>
              verify_attribution store claim subject parsed.relation
                (parsed.object.getD "") object_entity
          | .LOCATION =>
              verify_location store claim subject (parsed.object.getD "")
                object_entity
          | .PROPERTY =>
              verify_property store claim subject (parsed.object.getD "")
          | ct =>
              verify_generic store claim ct subject parsed.relation
                object_entity

/-- `ClaimVerifier.verify_batch`. -/
def verify_batch (store : EntityStore) (claims : List String) :
    List VerificationResult :=
  claims.map (verify store)

end ClaimVerifier

/-- C8: `verify_batch` maps `verify` over the claims in order, preserving
length; the empty list yields the empty list. -/
theorem ClaimVerifier.verify_batch_spec (store : EntityStore)
    (claims : List String) :
    (ClaimVerifier.verify_batch store claims).length = claims.length ∧
    (∀ i : Nat, (ClaimVerifier.verify_batch store claims)[i]? =
      (claims[i]?).map (ClaimVerifier.verify store)) ∧
    ClaimVerifier.verify_batch store [] = [] := by
  refine ⟨List.length_map _ _, fun i => ?_, rfl⟩
  simp [ClaimVerifier.verify_batch]

/-- C3: for a parsed location claim whose subject grounds, `verify` returns
SUPPORTED with confidence 0.95 when the claimed place lies on the subject's
SPATIAL path, and otherwise, when the subject has a SPATIAL position at all,
CONTRADICTED with confidence 0.8 and a correction built from the last (up to
three) nodes of the subject's actual spatial path. -/
theorem ClaimVerifier.verify_location_spec (store : EntityStore)
    (claim subj rel obj : String) (subject : EntityProfile)
    (hparse : ClaimVerifier.parse_claim claim =
      some ⟨ClaimType.LOCATION, subj, rel, some obj⟩)
    (hground : ClaimVerifier.ground_entity store subj = some subject) :
    (subject.is_descendant_of obj GroundingDimension.SPATIAL = true →
      (ClaimVerifier.verify store claim).status = .SUPPORTED ∧
      (ClaimVerifier.verify store claim).confidence = 0.95) ∧
    (∀ pos, subject.is_descendant_of obj GroundingDimension.SPATIAL = false →
      subject.get_position GroundingDimension.SPATIAL = some pos →
      (ClaimVerifier.verify store claim).status = .CONTRADICTED ∧
      (ClaimVerifier.verify store claim).confidence = 0.8 ∧
      (ClaimVerifier.verify store claim).correction =
        some (subject.entity.label ++ " is located in " ++
          String.intercalate " > " (lastSlice 3 pos.path_nodes))) := by
  have hv : ClaimVerifier.verify store claim =
      ClaimVerifier.verify_location store claim subject obj
        (if obj.isEmpty then none else ClaimVerifier.ground_entity store obj) := by
    unfold ClaimVerifier.verify
    rw [hparse]
    dsimp only
    rw [hground]
    rfl
  rw [hv]
  constructor
  · intro hdesc
    unfold ClaimVerifier.verify_location
    rw [if_pos hdesc]
    exact ⟨rfl, rfl⟩
  · intro pos hdesc hpos
    unfold ClaimVerifier.verify_location
    rw [if_neg (by simp [hdesc]), hpos]
    exact ⟨rfl, rfl, rfl⟩

def witnessLocStore : EntityStore :=
  { entities := [{ id := "Q90", wikipedia_title := "Paris", label := "Paris" }],
    dimension_positions :=
      [("Q90", { dimension := .SPATIAL, path_sign := 1, path_depth := 3,
                 path_nodes := ["Earth", "Europe", "France", "Paris"],
                 zero_state := "Earth" })] }

def witnessParisProfile : EntityProfile :=
  { entity := { id := "Q90", wikipedia_title := "Paris", label := "Paris" },
    positions := [{ dimension := .SPATIAL, path_sign := 1, path_depth := 3,
                    path_nodes := ["Earth", "Europe", "France", "Paris"],
                    zero_state := "Earth" }] }

theorem verify_location_spec_witness :
    ((ClaimVerifier.verify witnessLocStore "Paris is in Europe").status =
        VerificationStatus.SUPPORTED ∧
     (ClaimVerifier.verify witnessLocStore "Paris is in Europe").confidence =
        0.95) ∧
    ((ClaimVerifier.verify witnessLocStore "Paris is in Tokyo").status =
        VerificationStatus.CONTRADICTED ∧
     (ClaimVerifier.verify witnessLocStore "Paris is in Tokyo").confidence =
        0.8 ∧
     (ClaimVerifier.verify witnessLocStore "Paris is in Tokyo").correction =
       some (witnessParisProfile.entity.label ++ " is located in " ++
         String.intercalate " > "
           (lastSlice 3 ["Earth", "Europe", "France", "Paris"]))) := by
  constructor
  · exact (ClaimVerifier.verify_location_spec witnessLocStore
      "Paris is in Europe" "Paris" "in" "Europe" witnessParisProfile
      (by decide) (by decide)).1 (by decide)
  · exact (ClaimVerifier.verify_location_spec witnessLocStore
      "Paris is in Tokyo" "Paris" "in" "Tokyo" witnessParisProfile
      (by decide) (by decide)).2
      { dimension := .SPATIAL, path_sign := 1, path_depth := 3,
        path_nodes := ["Earth", "Europe", "France", "Paris"],
        zero_state := "Earth" } (by decide) (by decide)

/-- C4 (amended): for a claim that parses but whose subject mention cannot be
grounded, `verify` returns UNVERIFIABLE with confidence 0.3 (the code uses
0.3 here, not the 0.0 of the specification scenario). -/
theorem ClaimVerifier.verify_ungrounded_subject_spec (store : EntityStore)
    (claim : String) (parsed : ParsedClaim)
    (hparse : ClaimVerifier.parse_claim claim = some parsed)
    (hground : ClaimVerifier.ground_entity store parsed.subject = none) :
    (ClaimVerifier.verify store claim).status = .UNVERIFIABLE ∧
    (ClaimVerifier.verify store claim).confidence = 0.3 ∧
    (ClaimVerifier.verify store claim).claim_type = some parsed.claim_type := by
  unfold ClaimVerifier.verify
  rw [hparse]
  dsimp only
  rw [hground]
  exact ⟨rfl, rfl, rfl⟩

def emptyStore : EntityStore := { entities := [] }

/-- Counterexample to C4 as stated: on a store that cannot ground
"Xyzzy123", the claim "Xyzzy123 is in France" parses (location pattern) and
`verify` returns UNVERIFIABLE with confidence 0.3, not 0.0. -/
theorem verify_ungrounded_confidence_counterexample :
    (ClaimVerifier.verify emptyStore "Xyzzy123 is in France").status =
      VerificationStatus.UNVERIFIABLE ∧
    (ClaimVerifier.verify emptyStore "Xyzzy123 is in France").confidence =
      0.3 ∧
    ¬ (ClaimVerifier.verify emptyStore "Xyzzy123 is in France").confidence
      = 0 := by
  refine ⟨rfl, rfl, ?_⟩
  intro h
  have h2 : (0.3 : ℚ) = 0 := h
  norm_num at h2

theorem verify_ungrounded_subject_spec_witness :
    (ClaimVerifier.verify emptyStore "Xyzzy123 is in France").status =
      VerificationStatus.UNVERIFIABLE ∧
    (ClaimVerifier.verify emptyStore "Xyzzy123 is in France").confidence =
      0.3 ∧
    (ClaimVerifier.verify emptyStore "Xyzzy123 is in France").claim_type =
      some ClaimType.LOCATION := by
  have h := ClaimVerifier.verify_ungrounded_subject_spec emptyStore
    "Xyzzy123 is in France"
    ⟨ClaimType.LOCATION, "Xyzzy123", "in", some "France"⟩
    (by decide) (by decide)
  exact ⟨h.1, h.2.1, h.2.2⟩
